import Mathlib

/-!
Verification of the voice-playback coordinator of the DiscordTtsBot
repository (`src/index.js`) against its natural-language specification.

The JavaScript source is shallowly embedded as follows.

* A JS string is a sequence of UTF-16 code units.  `sanitizeText`,
  whose regular expressions carry no `u` flag and therefore match
  individual code units, is embedded over `List Nat` of code units
  (`utf16Encode` produces that view; supplementary-plane characters
  become surrogate pairs); its regexes are given their denotations on
  maximal code-unit runs (see the doc comments).  `normalizeVoice`,
  which only ever recognises ASCII identifiers — where the code-point
  and code-unit views coincide — is embedded over `List Char`, as is
  the text carried by the playback queue, of which only the length
  enters the semantics.
* The pure functions `sanitizeText` and `normalizeVoice` are translated
  directly from the source.
* The per-guild mutable state (`guildAudioState`, connection, player,
  promise chain) becomes an explicit `World` value threaded through the
  operations, and every externally visible action (creating/destroying a
  connection, stopping a player, calling the synthesis provider,
  starting/finishing a playback task, invoking a failure callback) is
  recorded in an event trace (`Ev`).
* The real-time waits (`entersState(conn, Ready, 10_000)`,
  `entersState(player, Playing, 5_000)`, `entersState(player, Idle, t)`,
  the 5 s `Promise.race` in the `Disconnected` handler) are modelled by
  oracle arrival times (`Option Nat`, `none` = the transition never
  happens) compared against the source's timeout constants.
* The promise chain `state.queue = state.queue.then(() => playText(...))
  .catch(onError)` is a list of `ChainEntry`s appended by
  `enqueueSpeech`; its JavaScript semantics — each `then`-continuation
  runs only after its predecessor has settled, and each task's `catch`
  boundary converts that task's rejection into a resolution after
  notifying — is the sequential interpreter `runChain`.
* Fallible calls (`player.stop`, `connection.destroy`) return `Except`;
  the source's `try { ... } catch { /* ignore */ }` blocks become
  explicit matches discarding the error.
-/

namespace TtsBot

/-- Connection lifecycle states (`VoiceConnectionStatus` in
`@discordjs/voice`). -/
inductive VCStatus
  | signalling
  | connecting
  | ready
  | disconnected
  | destroyed
deriving DecidableEq

/-- The error taxonomy of the coordinator (spec §7). -/
inductive VErr
  | connectionTimeout
  | synthesisFailed
  | playbackStartTimeout
  | playbackTimeout
deriving DecidableEq

/-- Where a synthesis call was issued: eagerly by `enqueueSpeech`
(`preparedSpeech`), or lazily by `playText`'s fallback
`preparedResourcePromise ?? synthesizeToResource(text, voice)`. -/
inductive SynthOrigin
  | atEnqueue
  | atPlay
deriving DecidableEq

/-- Externally visible actions of the coordinator, recorded in traces. -/
inductive Ev
  | connCreate (connId : Nat)
  | connDestroy (connId : Nat)
  | playerStop (connId : Nat)
  | connError
  | synthStart (tid : Nat) (origin : SynthOrigin)
  | enqueued (tid : Nat)
  | taskStart (tid : Nat)
  | playCall (tid : Nat)
  | taskEnd (tid : Nat) (r : Option VErr)
  | onError (tid : Nat)
deriving DecidableEq

/-- `entersState(state.player, AudioPlayerStatus.Playing, 5_000)`
(src/index.js line 257). -/
def playingStartTimeoutMs : Nat := 5000

/-- `entersState(state.connection, VoiceConnectionStatus.Ready, 10_000)`
(src/index.js line 248). -/
def connectionReadyTimeoutMs : Nat := 10000

/-- The 5 s bound of the two `entersState` calls raced by the
`Disconnected` handler (src/index.js lines 233-234). -/
def disconnectGraceMs : Nat := 5000

/-- `const playbackTimeout = Math.min(120_000, Math.max(10_000,
text.length * 600));` (src/index.js line 258). -/
def playbackTimeoutMs (text : List Char) : Nat :=
  min 120000 (max 10000 (text.length * 600))

/-- Modelled from the spec's words: `clamp(lo, x, hi)` as used in
"clamp(10s, text_length * 600ms, 120s)" — `x` clamped into `[lo, hi]`. -/
def clampSpec (lo x hi : Nat) : Nat := min hi (max lo x)

/-- Does an awaited transition arrive within `bound` milliseconds?
`t = none` means the transition never occurs; `entersState` then rejects
on its timeout. -/
def within (t : Option Nat) (bound : Nat) : Bool :=
  match t with
  | some x => decide (x ≤ bound)
  | none => false

/-- Oracle for the real-time behaviour of one playback task: whether the
synthesis future resolves, and when the player reports the Playing and
Idle transitions (`none` = never). -/
structure TaskOracle where
  synthOk : Bool
  playingAt : Option Nat
  idleAt : Option Nat
deriving DecidableEq

/-- One link of a session's promise chain: the task id (its position in
the chain), the text, the task's oracle, and whether a prepared
synthesis future was started at enqueue time (`preparedSpeech`). -/
structure ChainEntry where
  tid : Nat
  text : List Char
  oracle : TaskOracle
  prepared : Bool
deriving DecidableEq

/-- `playText(state, text, voice, preparedResourcePromise)`
(src/index.js lines 252-260): await the resource
(`preparedResourcePromise ?? synthesizeToResource(text, voice)`), hand
it to the player, wait ≤ 5 s for Playing, then wait for Idle bounded by
`playbackTimeoutMs`.  Returns the events it emits and its outcome
(`none` = resolved, `some e` = rejected with `e`). -/
def playText (e : ChainEntry) : List Ev × Option VErr :=
  let synthEvs : List Ev :=
    if e.prepared then [] else [Ev.synthStart e.tid SynthOrigin.atPlay]
  if e.oracle.synthOk = false then
    (synthEvs, some VErr.synthesisFailed)
  else
    let evs := synthEvs ++ [Ev.playCall e.tid]
    if within e.oracle.playingAt playingStartTimeoutMs = false then
      (evs, some VErr.playbackStartTimeout)
    else if within e.oracle.idleAt (playbackTimeoutMs e.text) = false then
      (evs, some VErr.playbackTimeout)
    else
      (evs, none)

/-- Whether a task fails (its `playText` promise rejects): synthesis
fails, the Playing transition misses its 5 s bound, or the Idle
transition misses the length-derived bound. -/
def taskFails (text : List Char) (o : TaskOracle) : Bool :=
  !(o.synthOk && within o.playingAt playingStartTimeoutMs
      && within o.idleAt (playbackTimeoutMs text))

/-- The trace of one chain link, i.e. of
`.then(() => playText(state, text, voice, preparedSpeech)).catch(async
(error) => { console.error(...); if (onError) await onError(); })`
(src/index.js lines 193-198): the task starts, `playText` runs, the task
settles, and on rejection the `catch` boundary invokes the caller's
failure callback once and resolves. -/
def runEntry (e : ChainEntry) : List Ev :=
  Ev.taskStart e.tid ::
    ((playText e).1 ++ Ev.taskEnd e.tid (playText e).2 ::
      (if (playText e).2.isSome then [Ev.onError e.tid] else []))

/-- Sequential semantics of the promise chain: a `then`-continuation
runs only after its predecessor has settled, and every link's `catch`
resolves, so the links run one after the other in append order. -/
def runChain (cs : List ChainEntry) : List Ev :=
  (cs.map runEntry).flatten

/-- A voice connection: its identity, the `joinConfig.channelId` it was
created for, and its lifecycle status. -/
structure Connection where
  connId : Nat
  channelId : Nat
  status : VCStatus
deriving DecidableEq

/-- The per-guild entry of `guildAudioState`: the connection (with its
subscribed player) and the promise-chain queue. -/
structure SessionState where
  connection : Connection
  chain : List ChainEntry
deriving DecidableEq

/-- The process state: `guildAudioState` as an association list from
guild id to session, plus a counter supplying fresh connection ids. -/
structure World where
  registry : List (Nat × SessionState)
  nextConnId : Nat
deriving DecidableEq

/-- `guildAudioState.get(guildId)`. -/
def lookupReg (g : Nat) (r : List (Nat × SessionState)) : Option SessionState :=
  (r.find? (fun p => p.1 == g)).map (·.2)

/-- `guildAudioState.delete(guildId)`. -/
def eraseReg (g : Nat) (r : List (Nat × SessionState)) : List (Nat × SessionState) :=
  r.filter (fun p => p.1 != g)

/-- `guildAudioState.set(guildId, state)`. -/
def insertReg (g : Nat) (st : SessionState) (r : List (Nat × SessionState)) :
    List (Nat × SessionState) :=
  (g, st) :: eraseReg g r

/-- `state.player.stop(true)` — a call that may throw (oracled by
`fails`); on success it force-stops the player. -/
def stopPlayerCall (fails : Bool) (cid : Nat) : Except String (List Ev) :=
  if fails then Except.error "player.stop threw" else Except.ok [Ev.playerStop cid]

/-- `state.connection.destroy()` — a call that may throw. -/
def destroyConnCall (fails : Bool) (cid : Nat) : Except String (List Ev) :=
  if fails then Except.error "connection.destroy threw" else Except.ok [Ev.connDestroy cid]

/-- `cleanupState(guildId)` (src/index.js lines 277-296): if no session
is registered, return at once; otherwise best-effort-stop the player
(`try { state.player.stop(true) } catch { }`), best-effort-destroy the
connection unless its status is already Destroyed, and delete the
registry entry.  The result is `Except` so that "teardown never raises"
is a provable statement rather than a modelling assumption: each
fallible step's error is discarded by an explicit match, exactly like
the source's `try`/`catch` blocks. -/
def cleanupState (stopFails destroyFails : Bool) (g : Nat) (w : World) :
    Except String (World × List Ev) :=
  match lookupReg g w.registry with
  | none => Except.ok (w, [])
  | some st =>
    let cid := st.connection.connId
    let evs₁ :=
      match stopPlayerCall stopFails cid with
      | Except.ok e => e
      | Except.error _ => []
    let evs₂ :=
      if st.connection.status = VCStatus.destroyed then []
      else
        match destroyConnCall destroyFails cid with
        | Except.ok e => e
        | Except.error _ => []
    Except.ok ({ w with registry := eraseReg g w.registry }, evs₁ ++ evs₂)

/-- `cleanupState` as a total function.  `cleanupState` never errors —
the teardown-totality theorem below proves it — so the error branch here
is dead code. -/
def cleanupRun (stopFails destroyFails : Bool) (g : Nat) (w : World) :
    World × List Ev :=
  match cleanupState stopFails destroyFails g w with
  | Except.ok r => r
  | Except.error _ => (w, [])

/-- `ensureConnection(voiceChannel)` (src/index.js lines 205-250):
look the guild up; if a session exists for a different channel, tear it
down first; if no (surviving) session exists, join the channel — a fresh
connection subscribed to a fresh player, registered with an empty queue;
finally `await entersState(connection, Ready, 10_000)`, failing with a
connection timeout if the Ready transition (oracled by `readyAt`) does
not arrive within the bound.  Returns the updated world — registry
mutations persist even when the final wait times out, as in the source —
the emitted events, and the result. -/
def ensureConnection (stopFails destroyFails : Bool) (readyAt : Option Nat)
    (g chanId : Nat) (w : World) :
    World × List Ev × Except VErr SessionState :=
  let st₀ := lookupReg g w.registry
  let step₁ :
      World × List Ev × Option SessionState :=
    match st₀ with
    | some st =>
      if st.connection.channelId == chanId then (w, [], some st)
      else
        let r := cleanupRun stopFails destroyFails g w
        (r.1, r.2, none)
    | none => (w, [], none)
  let step₂ :
      World × List Ev × SessionState :=
    match step₁.2.2 with
    | some st => (step₁.1, [], st)
    | none =>
      let conn : Connection :=
        { connId := step₁.1.nextConnId, channelId := chanId,
          status := VCStatus.signalling }
      let st : SessionState := { connection := conn, chain := [] }
      ({ registry := insertReg g st step₁.1.registry,
         nextConnId := step₁.1.nextConnId + 1 },
       [Ev.connCreate conn.connId], st)
  if within readyAt connectionReadyTimeoutMs then
    (step₂.1, step₁.2.1 ++ step₂.2.1, Except.ok step₂.2.2)
  else
    (step₂.1, step₁.2.1 ++ step₂.2.1, Except.error VErr.connectionTimeout)

/-- `enqueueSpeech(voiceChannel, text, voice, onError)` (src/index.js
lines 187-203): ensure the connection; on failure invoke the caller's
failure callback (`Ev.connError`) and stop; on success start the
synthesis for this task immediately (`preparedSpeech`, event
`Ev.synthStart tid .atEnqueue`) and append the task — carrying the
prepared future — to the session's promise chain. -/
def enqueueSpeech (stopFails destroyFails : Bool) (readyAt : Option Nat)
    (g chanId : Nat) (text : List Char) (oracle : TaskOracle) (w : World) :
    World × List Ev :=
  match ensureConnection stopFails destroyFails readyAt g chanId w with
  | (w₁, evs, Except.error _) => (w₁, evs ++ [Ev.connError])
  | (w₁, evs, Except.ok st) =>
    let tid := st.chain.length
    let entry : ChainEntry :=
      { tid := tid, text := text, oracle := oracle, prepared := true }
    ({ w₁ with registry :=
        insertReg g { st with chain := st.chain ++ [entry] } w₁.registry },
     evs ++ [Ev.synthStart tid SynthOrigin.atEnqueue, Ev.enqueued tid])

/-- The `VoiceConnectionStatus.Disconnected` handler (src/index.js lines
230-239): race `entersState(conn, Signalling, 5_000)` against
`entersState(conn, Connecting, 5_000)`; if either transition (oracled by
`signallingAt` / `connectingAt`) arrives within the grace window the
race resolves and the session survives untouched; if neither does, both
racers reject at the bound, the `catch` runs and the session is torn
down. -/
def onDisconnected (signallingAt connectingAt : Option Nat)
    (stopFails destroyFails : Bool) (g : Nat) (w : World) : World × List Ev :=
  if within signallingAt disconnectGraceMs
      || within connectingAt disconnectGraceMs then
    (w, [])
  else
    cleanupRun stopFails destroyFails g w

/-- The `VoiceConnectionStatus.Destroyed` handler (src/index.js lines
241-243): unconditionally tear the session down. -/
def onDestroyed (stopFails destroyFails : Bool) (g : Nat) (w : World) :
    World × List Ev :=
  cleanupRun stopFails destroyFails g w

/-- A burst of speak requests for one group: each request's text and
task oracle. -/
def enqueueAll (stopFails destroyFails : Bool) (readyAt : Option Nat)
    (g chanId : Nat) (reqs : List (List Char × TaskOracle)) (w : World) :
    World × List Ev :=
  match reqs with
  | [] => (w, [])
  | r :: rest =>
    let s₁ := enqueueSpeech stopFails destroyFails readyAt g chanId r.1 r.2 w
    let s₂ := enqueueAll stopFails destroyFails readyAt g chanId rest s₁.1
    (s₂.1, s₁.2 ++ s₂.2)

/-- End-to-end scenario: a burst of speak requests is submitted to one
group in order (spec §8's "rapid requests"), then the group's promise
chain drains.  The result is the full event trace. -/
def runScenario (stopFails destroyFails : Bool) (readyAt : Option Nat)
    (g chanId : Nat) (reqs : List (List Char × TaskOracle)) (w : World) :
    List Ev :=
  let s := enqueueAll stopFails destroyFails readyAt g chanId reqs w
  match lookupReg g s.1.registry with
  | some st => s.2 ++ runChain st.chain
  | none => s.2

/-- The chain that a burst of requests builds: task ids count up from
`base`, every entry carries a prepared synthesis future. -/
def mkChain (base : Nat) : List (List Char × TaskOracle) → List ChainEntry
  | [] => []
  | r :: rest =>
    { tid := base, text := r.1, oracle := r.2, prepared := true } ::
      mkChain (base + 1) rest

/-- The enqueue-time events of a burst: for each request, in order, the
eager synthesis start and the chain append. -/
def enqEvs (base : Nat) : List (List Char × TaskOracle) → List Ev
  | [] => []
  | _ :: rest =>
    Ev.synthStart base SynthOrigin.atEnqueue :: Ev.enqueued base ::
      enqEvs (base + 1) rest

/-- Index of the first event satisfying `p`, if any. -/
def firstPos (p : Ev → Bool) : List Ev → Option Nat
  | [] => none
  | e :: tr => if p e then some 0 else (firstPos p tr).map (· + 1)

/-- Matches the playback-start event of task `t`. -/
def isStartOf (t : Nat) (e : Ev) : Bool :=
  match e with
  | Ev.taskStart t' => t == t'
  | _ => false

/-- Matches the terminal event (resolved, failed, or timed out) of task
`t`. -/
def isEndOf (t : Nat) (e : Ev) : Bool :=
  match e with
  | Ev.taskEnd t' _ => t == t'
  | _ => false

/-- Matches the failure-callback invocation of task `t`. -/
def isOnErrorOf (t : Nat) (e : Ev) : Bool :=
  match e with
  | Ev.onError t' => t == t'
  | _ => false

/-- Matches any synthesis start for task `t`. -/
def isSynthOf (t : Nat) (e : Ev) : Bool :=
  match e with
  | Ev.synthStart t' _ => t == t'
  | _ => false

/-- Matches a synthesis start issued lazily by `playText` (the `??`
fallback) for task `t`. -/
def isSynthPlayOf (t : Nat) (e : Ev) : Bool :=
  match e with
  | Ev.synthStart t' o => t == t' && o == SynthOrigin.atPlay
  | _ => false

/-- Matches an enqueue-time failure-callback invocation. -/
def isConnErrorEv (e : Ev) : Bool :=
  match e with
  | Ev.connError => true
  | _ => false

/-- The task id an event belongs to, if any. -/
def evTid : Ev → Option Nat
  | Ev.synthStart t _ => some t
  | Ev.enqueued t => some t
  | Ev.taskStart t => some t
  | Ev.playCall t => some t
  | Ev.taskEnd t _ => some t
  | Ev.onError t => some t
  | _ => none

/-! ## The text sanitizer (`sanitizeText`, src/index.js lines 63-88)

A JS string is a sequence of UTF-16 code units, and the sanitizer's
regular expressions carry no `u` flag, so they match individual code
units: in particular `/(.)\1{4,}/g` can collapse a run of five
identical code units, but never a run of five identical
supplementary-plane characters, whose encodings are alternating
high/low surrogate units.  The sanitizer is therefore embedded over
`List Nat` of UTF-16 code units; `utf16Encode` converts a sequence of
code points into that representation. -/

/-- UTF-16 encoding of one code point: itself when in the basic
multilingual plane, a high/low surrogate pair otherwise. -/
def utf16EncodeChar (c : Char) : List Nat :=
  if c.toNat < 0x10000 then [c.toNat]
  else
    [0xd800 + (c.toNat - 0x10000) / 0x400,
     0xdc00 + (c.toNat - 0x10000) % 0x400]

/-- UTF-16 encoding of a string of code points: the JS code-unit view
of the string. -/
def utf16Encode (s : List Char) : List Nat :=
  (s.map utf16EncodeChar).flatten

/-- JS line terminators, which `.` in a regular expression without the
`s` flag does not match: LF, CR, LINE SEPARATOR, PARAGRAPH SEPARATOR
(each a single code unit). -/
def isLineTerminator (u : Nat) : Bool :=
  u == 0x0a || u == 0x0d || u == 0x2028 || u == 0x2029

/-- JS `String.prototype.trim` whitespace (WhiteSpace and
LineTerminator), as code units.  Every such character is a single code
unit and no surrogate unit is whitespace, so trimming the code-unit
sequence agrees with JS `trim`. -/
def isJsWhitespaceUnit (u : Nat) : Bool :=
  u == 0x20 || u == 0x09 || u == 0x0a || u == 0x0d ||
  u == 0x0b || u == 0x0c || u == 0xa0 || u == 0x1680 ||
  (0x2000 ≤ u && u ≤ 0x200a) ||
  u == 0x202f || u == 0x205f || u == 0x2028 || u == 0x2029 ||
  u == 0x3000 || u == 0xfeff

/-- `input.trim()` on the code-unit view. -/
def jsTrimUnits (s : List Nat) : List Nat :=
  ((s.dropWhile isJsWhitespaceUnit).reverse.dropWhile isJsWhitespaceUnit).reverse

/-- `acc.replace(new RegExp(pat, 'g'), rep)` for a two-code-unit
literal pattern `p₁p₂` (all patterns in the source's replacement table
are two jamo characters — BMP, one code unit each — with no regex
metacharacters): scan left to right; at an occurrence emit `rep` and
continue after the occurrence (the replacement is not rescanned);
otherwise keep one code unit and continue.  Surrogate units lie in
0xd800-0xdfff and never equal a jamo unit, so matching code units
agrees with the JS regex. -/
def replacePair (p₁ p₂ : Nat) (rep : List Nat) : List Nat → List Nat
  | [] => []
  | [u] => [u]
  | u :: d :: rest =>
    if u = p₁ ∧ d = p₂ then rep ++ replacePair p₁ p₂ rep rest
    else u :: replacePair p₁ p₂ rep (d :: rest)

/-- The replacement table (src/index.js lines 67-74), as code units. -/
def replacements : List ((Nat × Nat) × List Nat) :=
  [(('ㄱ'.toNat, 'ㅊ'.toNat), utf16Encode "괜춘".data),
   (('ㅇ'.toNat, 'ㅎ'.toNat), utf16Encode "아하".data),
   (('ㅅ'.toNat, 'ㅂ'.toNat), utf16Encode "쉬발".data),
   (('ㅆ'.toNat, 'ㅃ'.toNat), utf16Encode "씨빨".data),
   (('ㅆ'.toNat, 'ㅂ'.toNat), utf16Encode "쒸발".data),
   (('ㅈ'.toNat, 'ㄹ'.toNat), utf16Encode "지랄".data)]

/-- `replacements.reduce((acc, [pat, rep]) => acc.replace(new
RegExp(pat, 'g'), rep), trimmed)`. -/
def applyReplacements (s : List Nat) : List Nat :=
  replacements.foldl (fun acc pr => replacePair pr.1.1 pr.1.2 pr.2 acc) s

/-- The maximal-run decomposition of a code-unit sequence: `runs s`
lists the sequence's maximal runs as (code unit, length) pairs. -/
def runs : List Nat → List (Nat × Nat)
  | [] => []
  | u :: us =>
    match runs us with
    | [] => [(u, 1)]
    | (d, n) :: rest =>
      if u = d then (d, n + 1) :: rest else (u, 1) :: (d, n) :: rest

/-- Concatenation of a run list back into a code-unit sequence. -/
def flattenRuns : List (Nat × Nat) → List Nat
  | [] => []
  | (u, n) :: rest => List.replicate n u ++ flattenRuns rest

/-- Denotation of `str.replace(new RegExp(ch + '+', 'g'), (m) =>
rep.repeat(m.length))` for single-code-unit `ch` and `rep`
(src/index.js lines 81-84; the jamo `ㄴ`/`ㅇ` and replacements
`노`/`응` are all BMP): each maximal run of `ch`, of length k, is
replaced by k copies of `rep`. -/
def expand (s : List Nat) (ch rep : Nat) : List Nat :=
  flattenRuns ((runs s).map (fun p => if p.1 = ch then (rep, p.2) else p))

/-- Action of `expanded.replace(/(.)\1{4,}/g, (m, ch) => ch.repeat(4))`
(src/index.js line 87) on one maximal run: without the `u` flag, `.`
matches any single code unit except a line terminator, and the
backreferenced group greedily takes the rest of the run, so a maximal
run of five or more identical non-line-terminator code units is
replaced by four copies; a run of line terminators, or of length at
most four, passes through unchanged.  A run of identical
supplementary-plane characters alternates high and low surrogate
units, so its code-unit runs all have length 1 and are never
collapsed. -/
def capRun (p : Nat × Nat) : Nat × Nat :=
  if 5 ≤ p.2 ∧ isLineTerminator p.1 = false then (p.1, 4) else p

/-- Denotation of `expanded.replace(/(.)\1{4,}/g, (m, ch) =>
ch.repeat(4))` (src/index.js line 87), applied run by run. -/
def capRepeats (s : List Nat) : List Nat :=
  flattenRuns ((runs s).map capRun)

/-- Well-formedness of a run decomposition: every run is non-empty and
adjacent runs carry distinct code units (maximality). -/
def runsWF : List (Nat × Nat) → Prop
  | [] => True
  | [p] => 0 < p.2
  | p :: q :: rest => 0 < p.2 ∧ p.1 ≠ q.1 ∧ runsWF (q :: rest)

/-- `sanitizeText` (src/index.js lines 63-88), on the code-unit view of
its input string. -/
def sanitizeText (input : List Nat) : List Nat :=
  let trimmed := jsTrimUnits input
  if (utf16Encode "http".data).isPrefixOf trimmed then
    utf16Encode "링크를 첨부했어요.".data
  else
    let replaced := applyReplacements trimmed
    let expanded :=
      expand (expand replaced 'ㄴ'.toNat '노'.toNat) 'ㅇ'.toNat '응'.toNat
    capRepeats expanded

/-- Does the code-unit sequence contain a run of five or more identical
consecutive code units (of any kind)? -/
def hasLongRun (s : List Nat) : Bool :=
  (runs s).any (fun p => 5 ≤ p.2)

/-- Does the code-unit sequence contain a run of five or more identical
consecutive non-line-terminator code units? -/
def hasLongVisibleRun (s : List Nat) : Bool :=
  (runs s).any (fun p => 5 ≤ p.2 && isLineTerminator p.1 = false)

/-! ## Voice normalization (`normalizeVoice`, src/index.js lines 47-61,
298-302) -/

/-- JS `String.prototype.trim` whitespace, at the code-point level:
`normalizeVoice` only ever recognises ASCII identifiers, for which the
code-point and code-unit views of a string coincide, so its helpers are
embedded over `List Char`. -/
def isJsWhitespace (c : Char) : Bool :=
  c == ' ' || c == '\t' || c == '\n' || c == '\r' ||
  c == '\x0b' || c == '\x0c' || c == '\u00a0' || c == '\u1680' ||
  (0x2000 ≤ c.toNat && c.toNat ≤ 0x200a) ||
  c == '\u202f' || c == '\u205f' || c == '\u2028' || c == '\u2029' ||
  c == '\u3000' || c == '\ufeff'

/-- `input.trim()`. -/
def jsTrim (s : List Char) : List Char :=
  ((s.dropWhile isJsWhitespace).reverse.dropWhile isJsWhitespace).reverse

/-- The fixed closed set of allowed voice identifiers (src/index.js
lines 47-61). -/
def allowedVoices : List (List Char) :=
  ["alloy".data, "echo".data, "fable".data, "onyx".data, "nova".data,
   "shimmer".data, "coral".data, "verse".data, "ballad".data, "ash".data,
   "sage".data, "marin".data, "cedar".data]

/-- ASCII fragment of JS `String.prototype.toLowerCase`, applied
character-wise (every allowed voice identifier is lowercase ASCII). -/
def jsToLowerChar (c : Char) : Char :=
  if 'A' ≤ c ∧ c ≤ 'Z' then Char.ofNat (c.toNat + 32) else c

/-- `input.trim().toLowerCase()` on the character-list embedding. -/
def jsToLower (s : List Char) : List Char :=
  s.map jsToLowerChar

/-- `normalizeVoice(input)` (src/index.js lines 298-302): a falsy input
(`undefined`/`null`, modelled `none`, or the empty string) yields
`'echo'`; otherwise the trimmed, lowercased input if it is an allowed
voice, else `'echo'`. -/
def normalizeVoice (input : Option (List Char)) : List Char :=
  match input with
  | none => "echo".data
  | some s =>
    if s = [] then "echo".data
    else
      let normalized := jsToLower (jsTrim s)
      if normalized ∈ allowedVoices then normalized else "echo".data

/-! ## C2: the playback wait bound -/

/-- C2: for every text input of length L, the bound on the Playing-phase
wait for the player to reach the idle state equals
clamp(10000 ms, L*600 ms, 120000 ms) = min(120000, max(10000, L*600)) —
a `playText` task resolves exactly when synthesis succeeds, the Playing
transition arrives within its bound, and the Idle transition arrives
within `playbackTimeoutMs text` — and in particular L=5 gives 10000 ms,
L=100 gives 60000 ms, and L=500 gives 120000 ms. -/
theorem c2_playback_wait_bound :
    (∀ text : List Char,
      playbackTimeoutMs text = clampSpec 10000 (text.length * 600) 120000)
    ∧ (∀ (tid : Nat) (text : List Char) (o : TaskOracle) (prep : Bool),
        (playText { tid := tid, text := text, oracle := o, prepared := prep }).2 = none
          ↔ (o.synthOk && within o.playingAt playingStartTimeoutMs
              && within o.idleAt (playbackTimeoutMs text)) = true)
    ∧ playbackTimeoutMs (List.replicate 5 'a') = 10000
    ∧ playbackTimeoutMs (List.replicate 100 'a') = 60000
    ∧ playbackTimeoutMs (List.replicate 500 'a') = 120000 := by
  refine ⟨fun text => rfl, fun tid text o prep => ?_,
    by simp only [playbackTimeoutMs, List.length_replicate]; omega,
    by simp only [playbackTimeoutMs, List.length_replicate]; omega,
    by simp only [playbackTimeoutMs, List.length_replicate]; omega⟩
  cases h₁ : o.synthOk <;>
    cases h₂ : within o.playingAt playingStartTimeoutMs <;>
      cases h₃ : within o.idleAt (playbackTimeoutMs text) <;>
        simp [playText, h₁, h₂, h₃]

/-! ## C10: voice normalization -/

/-- C10: `normalizeVoice` always returns a member of the fixed closed
set of 13 allowed voice identifiers; an absent input, the empty string,
or an input whose trimmed lowercase form is not in the set yields the
default voice `echo`; consequently `normalizeVoice` is idempotent. -/
theorem c10_normalizeVoice_closed_set :
    (∀ input, normalizeVoice input ∈ allowedVoices)
    ∧ allowedVoices.length = 13
    ∧ normalizeVoice none = "echo".data
    ∧ normalizeVoice (some []) = "echo".data
    ∧ (∀ s, jsToLower (jsTrim s) ∉ allowedVoices → normalizeVoice (some s) = "echo".data)
    ∧ (∀ input, normalizeVoice (some (normalizeVoice input)) = normalizeVoice input) := by
  have hfix : ∀ v ∈ allowedVoices, normalizeVoice (some v) = v := by
    intro v hv
    have hall : allowedVoices.all (fun v => normalizeVoice (some v) == v) = true := by decide
    have h := List.all_eq_true.mp hall v hv
    simpa [beq_iff_eq] using h
  have hmem : ∀ input, normalizeVoice input ∈ allowedVoices := by
    intro input
    cases input with
    | none => simp only [normalizeVoice]; decide
    | some s =>
      by_cases h0 : s = []
      · subst h0; simp only [normalizeVoice, if_pos rfl]; decide
      · simp only [normalizeVoice, if_neg h0]
        by_cases hm : jsToLower (jsTrim s) ∈ allowedVoices
        · simp only [if_pos hm]; exact hm
        · simp only [if_neg hm]; decide
  refine ⟨hmem, by decide, by decide, by decide, ?_, fun input => hfix _ (hmem input)⟩
  intro s h
  by_cases h0 : s = []
  · subst h0; simp [normalizeVoice]
  · simp [normalizeVoice, h0, h]

/-- Witness for C10: concrete inputs exercising the default-on-unknown
hypothesis and idempotence. -/
theorem c10_normalizeVoice_closed_set_witness :
    normalizeVoice (some "zzz".data) = "echo".data
    ∧ normalizeVoice (some (normalizeVoice (some " ECHO ".data)))
        = normalizeVoice (some " ECHO ".data) :=
  ⟨c10_normalizeVoice_closed_set.2.2.2.2.1 "zzz".data (by decide),
   c10_normalizeVoice_closed_set.2.2.2.2.2 (some " ECHO ".data)⟩

/-! ## C9: the repeated-character cap of the sanitizer -/

theorem runs_cons (c : Nat) (cs : List Nat) :
    runs (c :: cs) =
      match runs cs with
      | [] => [(c, 1)]
      | (d, n) :: rest =>
        if c = d then (d, n + 1) :: rest else (c, 1) :: (d, n) :: rest := rfl

theorem runsWF_cons_count {c : Nat} {n m : Nat} {rest : List (Nat × Nat)}
    (h : runsWF ((c, n) :: rest)) (hm : 0 < m) : runsWF ((c, m) :: rest) := by
  cases rest with
  | nil => simpa [runsWF] using hm
  | cons q rest' =>
    simp only [runsWF] at h ⊢
    exact ⟨hm, h.2.1, h.2.2⟩

theorem runsWF_tail {p : Nat × Nat} {rest : List (Nat × Nat)}
    (h : runsWF (p :: rest)) : runsWF rest := by
  cases rest with
  | nil => trivial
  | cons q rest' =>
    simp only [runsWF] at h
    exact h.2.2

theorem runs_wf (s : List Nat) : runsWF (runs s) := by
  induction s with
  | nil => trivial
  | cons c cs ih =>
    cases h : runs cs with
    | nil => simp [runs_cons, h, runsWF]
    | cons p rest =>
      obtain ⟨d, n⟩ := p
      rw [h] at ih
      by_cases hcd : c = d
      · simp only [runs_cons, h, if_pos hcd]
        exact runsWF_cons_count ih (Nat.succ_pos n)
      · simp only [runs_cons, h, if_neg hcd]
        cases rest with
        | nil => simp only [runsWF]; exact ⟨Nat.one_pos, hcd, by simpa [runsWF] using ih⟩
        | cons q rest' => simp only [runsWF]; exact ⟨Nat.one_pos, hcd, ih⟩

theorem capRun_fst (p : Nat × Nat) : (capRun p).1 = p.1 := by
  unfold capRun; split <;> rfl

theorem capRun_pos {p : Nat × Nat} (h : 0 < p.2) : 0 < (capRun p).2 := by
  unfold capRun; split
  · exact Nat.succ_pos 3
  · exact h

theorem runsWF_map_capRun {rl : List (Nat × Nat)} (h : runsWF rl) :
    runsWF (rl.map capRun) := by
  induction rl with
  | nil => trivial
  | cons p rest ih =>
    cases rest with
    | nil =>
      simp only [runsWF, List.map_nil, List.map_cons] at h ⊢
      exact capRun_pos h
    | cons q rest' =>
      simp only [runsWF, List.map_cons] at h ⊢
      refine ⟨capRun_pos h.1, ?_, ih h.2.2⟩
      rw [capRun_fst, capRun_fst]
      exact h.2.1

theorem runs_replicate_append (c : Nat) (l : List Nat)
    (hhead : ∀ d m rest, runs l = (d, m) :: rest → d ≠ c) :
    ∀ n, 0 < n → runs (List.replicate n c ++ l) = (c, n) :: runs l := by
  intro n
  induction n with
  | zero => intro h; exact absurd h (Nat.lt_irrefl 0)
  | succ k ih =>
    intro _
    cases k with
    | zero =>
      rw [List.replicate_one, List.cons_append, List.nil_append, runs_cons]
      cases hl : runs l with
      | nil => simp
      | cons p rest =>
        obtain ⟨d, m⟩ := p
        have hne : ¬(c = d) := fun hEq => (hhead d m rest hl) hEq.symm
        simp [hne]
    | succ j =>
      have ihh := ih (Nat.succ_pos j)
      rw [show List.replicate (j + 1 + 1) c ++ l
            = c :: (List.replicate (j + 1) c ++ l) from rfl,
          runs_cons, ihh]
      simp

theorem flattenRuns_cons (p : Nat × Nat) (rest : List (Nat × Nat)) :
    flattenRuns (p :: rest) = List.replicate p.2 p.1 ++ flattenRuns rest := by
  obtain ⟨c, n⟩ := p
  rfl

theorem runs_flattenRuns : ∀ {rl : List (Nat × Nat)}, runsWF rl →
    runs (flattenRuns rl) = rl := by
  intro rl
  induction rl with
  | nil => intro _; rfl
  | cons p rest ih =>
    intro h
    obtain ⟨c, n⟩ := p
    have hn : 0 < n := by
      cases rest with
      | nil => simpa [runsWF] using h
      | cons q rest' =>
        have h' : 0 < n ∧ (c, n).1 ≠ q.1 ∧ runsWF (q :: rest') := by
          simpa only [runsWF] using h
        exact h'.1
    have hr : runsWF rest := runsWF_tail h
    have ihr := ih hr
    have hhead : ∀ d m rest', runs (flattenRuns rest) = (d, m) :: rest' → d ≠ c := by
      intro d m rest' hEq
      rw [ihr] at hEq
      subst hEq
      have h' : 0 < n ∧ (c, n).1 ≠ (d, m).1 ∧ runsWF ((d, m) :: rest') := by
        simpa only [runsWF] using h
      exact fun hdc => h'.2.1 hdc.symm
    rw [flattenRuns_cons]
    rw [runs_replicate_append c (flattenRuns rest) hhead n hn, ihr]

theorem runs_capRepeats (s : List Nat) : runs (capRepeats s) = (runs s).map capRun :=
  runs_flattenRuns (runsWF_map_capRun (runs_wf s))

theorem capRepeats_no_long_visible (t : List Nat) :
    hasLongVisibleRun (capRepeats t) = false := by
  unfold hasLongVisibleRun
  rw [runs_capRepeats, List.any_map]
  refine List.any_eq_false.mpr ?_
  intro p _
  simp only [Function.comp]
  unfold capRun
  split
  · simp
  · rename_i hcond
    by_cases h5 : 5 ≤ p.2
    · have : isLineTerminator p.1 = true := by
        by_contra hLT
        exact hcond ⟨h5, by simpa using hLT⟩
      simp [this]
    · simp [h5]

/-- C9 (amended): for every input string (viewed as its UTF-16
code-unit sequence), the sanitizer's output contains no run of five or
more identical consecutive non-line-terminator code units — every
maximal run of length ≥ 5 of a code unit that the collapse regex's `.`
can match is shortened to exactly 4 (`capRun`); runs of line
terminators pass through, and a run of identical supplementary-plane
characters never forms a code-unit run of length ≥ 2 in the first
place. -/
theorem c9_no_long_visible_run (s : List Nat) :
    hasLongVisibleRun (sanitizeText s) = false := by
  unfold sanitizeText
  dsimp only
  split
  · decide
  · exact capRepeats_no_long_visible _

/-- C9 counterexamples to the claim as stated, on two concrete inputs.
On `"a\n\n\n\n\na"` the sanitizer returns the input unchanged — the
collapse regex `/(.)\1{4,}/g` cannot match the five newlines because
`.` does not match line terminators — so the output contains a run of
five identical consecutive characters.  On five U+1F600 (a
supplementary-plane character, encoded as the surrogate pair
0xd83d 0xde00) the sanitizer also returns the input unchanged — without
the `u` flag the regex sees only alternating surrogate code units — so
a run of five identical consecutive characters again survives instead
of being shortened to four. -/
theorem c9_counterexample_uncollapsed_runs :
    (hasLongRun (sanitizeText (utf16Encode "a\n\n\n\n\na".data)) = true
      ∧ sanitizeText (utf16Encode "a\n\n\n\n\na".data)
          = utf16Encode "a\n\n\n\n\na".data)
    ∧ sanitizeText (utf16Encode (List.replicate 5 (Char.ofNat 0x1f600)))
        = utf16Encode (List.replicate 5 (Char.ofNat 0x1f600)) :=
  ⟨⟨by decide, by decide⟩, by decide⟩

/-! ## Registry lemmas -/

theorem lookupReg_insert (g : Nat) (st : SessionState) (r : List (Nat × SessionState)) :
    lookupReg g (insertReg g st r) = some st := by
  simp [lookupReg, insertReg, List.find?]

theorem lookupReg_erase (g : Nat) (r : List (Nat × SessionState)) :
    lookupReg g (eraseReg g r) = none := by
  induction r with
  | nil => rfl
  | cons p r ih =>
    cases hbeq : p.1 == g with
    | true =>
      simp only [eraseReg, List.filter_cons, bne, hbeq, Bool.not_true]
      simpa [eraseReg] using ih
    | false =>
      simp only [eraseReg, List.filter_cons, bne, hbeq, Bool.not_false, if_pos]
      simp only [lookupReg, List.find?, hbeq]
      exact ih

theorem eraseReg_of_lookup_none {g : Nat} :
    ∀ {r : List (Nat × SessionState)}, lookupReg g r = none → eraseReg g r = r := by
  intro r
  induction r with
  | nil => intro _; rfl
  | cons p r ih =>
    intro h
    cases hbeq : p.1 == g with
    | true =>
      exfalso
      simp [lookupReg, List.find?, hbeq] at h
    | false =>
      have h' : lookupReg g r = none := by
        simpa [lookupReg, List.find?, hbeq] using h
      simp only [eraseReg, List.filter_cons, bne, hbeq, Bool.not_false, if_pos]
      simpa [eraseReg] using ih h'

/-! ## C6: teardown is total, silent, and idempotent -/

/-- C6: `cleanupState` never raises — for every failure behaviour of the
player-stop and connection-destroy calls it returns `ok` — after it runs
the group's registry entry is absent, running it again on the result is
a no-op, and running it on a world with no live session for the group
leaves all state unchanged. -/
theorem c6_teardown_total_idempotent
    (stopFails destroyFails stopFails' destroyFails' : Bool) (g : Nat) (w : World) :
    ∃ w' evs, cleanupState stopFails destroyFails g w = Except.ok (w', evs)
      ∧ lookupReg g w'.registry = none
      ∧ cleanupState stopFails' destroyFails' g w' = Except.ok (w', [])
      ∧ (lookupReg g w.registry = none → w' = w ∧ evs = []) := by
  cases h : lookupReg g w.registry with
  | none =>
    refine ⟨w, [], ?_, h, ?_, fun _ => ⟨rfl, rfl⟩⟩
    · simp [cleanupState, h]
    · simp [cleanupState, h]
  | some st =>
    have hclean : cleanupState stopFails destroyFails g w =
        Except.ok ({ w with registry := eraseReg g w.registry },
          (if stopFails then [] else [Ev.playerStop st.connection.connId]) ++
          (if st.connection.status = VCStatus.destroyed then []
           else if destroyFails then []
           else [Ev.connDestroy st.connection.connId])) := by
      cases stopFails <;> cases destroyFails <;>
        by_cases hst : st.connection.status = VCStatus.destroyed <;>
          simp [cleanupState, h, hst, stopPlayerCall, destroyConnCall]
    refine ⟨_, _, hclean, lookupReg_erase g w.registry,
      by simp [cleanupState, lookupReg_erase], ?_⟩
    intro hnone
    simp [h] at hnone

/-- Witness for C6 at a concrete world holding a live session, with both
teardown steps throwing. -/
theorem c6_teardown_total_idempotent_witness :
    ∃ w' evs,
      cleanupState true true 0
          { registry :=
              [(0, { connection := { connId := 1, channelId := 2,
                                     status := VCStatus.ready },
                     chain := [] })],
            nextConnId := 5 }
        = Except.ok (w', evs)
      ∧ lookupReg 0 w'.registry = none
      ∧ cleanupState false false 0 w' = Except.ok (w', [])
      ∧ (lookupReg 0
            ({ registry :=
                 [(0, { connection := { connId := 1, channelId := 2,
                                        status := VCStatus.ready },
                        chain := [] })],
               nextConnId := 5 } : World).registry = none →
          w' = { registry :=
                   [(0, { connection := { connId := 1, channelId := 2,
                                          status := VCStatus.ready },
                          chain := [] })],
                 nextConnId := 5 } ∧ evs = []) :=
  c6_teardown_total_idempotent true true false false 0 _

/-! ## C7: the connection-ready wait is bounded by 10 s -/

theorem cleanupRun_no_connError (sf df : Bool) (g : Nat) (w : World) :
    (cleanupRun sf df g w).2.countP isConnErrorEv = 0 := by
  cases h : lookupReg g w.registry with
  | none => simp [cleanupRun, cleanupState, h]
  | some st =>
    cases sf <;> cases df <;>
      by_cases hst : st.connection.status = VCStatus.destroyed <;>
        simp [cleanupRun, cleanupState, h, hst, stopPlayerCall, destroyConnCall,
          isConnErrorEv, List.countP_cons, List.countP_append]

theorem ensureConnection_no_connError (sf df : Bool) (readyAt : Option Nat)
    (g chanId : Nat) (w : World) :
    (ensureConnection sf df readyAt g chanId w).2.1.countP isConnErrorEv = 0 := by
  cases h : lookupReg g w.registry with
  | none =>
    cases hr : within readyAt connectionReadyTimeoutMs <;>
      simp [ensureConnection, h, hr, isConnErrorEv, List.countP_cons,
        List.countP_append]
  | some st =>
    cases hr : within readyAt connectionReadyTimeoutMs <;>
      by_cases hch : (st.connection.channelId == chanId) = true <;>
        simp [ensureConnection, h, hr, hch, isConnErrorEv, List.countP_cons,
          List.countP_append, cleanupRun_no_connError]

/-- C7: `ensureConnection` waits for the Ready transition with the
bound `connectionReadyTimeoutMs = 10000` ms: a Ready arrival within the
bound yields a session, and a miss yields a connection-timeout error
rather than an indefinite suspension; on that failure `enqueueSpeech`
invokes the speak request's failure callback exactly once. -/
theorem c7_ready_wait_bounded (sf df : Bool) (readyAt : Option Nat)
    (g chanId : Nat) (text : List Char) (orc : TaskOracle) (w : World)
    (hlate : within readyAt connectionReadyTimeoutMs = false) :
    connectionReadyTimeoutMs = 10000
    ∧ (ensureConnection sf df readyAt g chanId w).2.2
        = Except.error VErr.connectionTimeout
    ∧ (∀ readyAt', within readyAt' connectionReadyTimeoutMs = true →
        ∃ st, (ensureConnection sf df readyAt' g chanId w).2.2 = Except.ok st)
    ∧ (enqueueSpeech sf df readyAt g chanId text orc w).2.countP isConnErrorEv
        = 1 := by
  have herr : (ensureConnection sf df readyAt g chanId w).2.2
      = Except.error VErr.connectionTimeout := by
    simp only [ensureConnection, hlate, Bool.false_eq_true, if_false]
  refine ⟨rfl, herr, ?_, ?_⟩
  · intro readyAt' hok
    rcases hE : (ensureConnection sf df readyAt' g chanId w).2.2 with err | st
    · exfalso
      simp only [ensureConnection, hok, if_true] at hE
      exact Except.noConfusion hE
    · exact ⟨st, rfl⟩
  · have hcnt := ensureConnection_no_connError sf df readyAt g chanId w
    rcases hE : ensureConnection sf df readyAt g chanId w with ⟨w₁, evs, res⟩
    rw [hE] at herr hcnt
    simp only at herr
    subst herr
    simp only at hcnt
    simp [enqueueSpeech, hE, List.countP_append, List.countP_cons, isConnErrorEv, hcnt]

/-- Witness for C7: a Ready transition that never arrives, against an
empty registry. -/
theorem c7_ready_wait_bounded_witness :
    connectionReadyTimeoutMs = 10000
    ∧ (ensureConnection false false none 0 1
        { registry := [], nextConnId := 0 }).2.2
        = Except.error VErr.connectionTimeout
    ∧ (∀ readyAt', within readyAt' connectionReadyTimeoutMs = true →
        ∃ st, (ensureConnection false false readyAt' 0 1
          { registry := [], nextConnId := 0 }).2.2 = Except.ok st)
    ∧ (enqueueSpeech false false none 0 1 "hi".data
        { synthOk := true, playingAt := some 0, idleAt := some 0 }
        { registry := [], nextConnId := 0 }).2.countP isConnErrorEv = 1 :=
  c7_ready_wait_bounded false false none 0 1 "hi".data
    { synthOk := true, playingAt := some 0, idleAt := some 0 }
    { registry := [], nextConnId := 0 } rfl

/-! ## C4: target-location changes recreate the session -/

theorem cleanupRun_lookup_none (sf df : Bool) (g : Nat) (w : World) :
    lookupReg g (cleanupRun sf df g w).1.registry = none := by
  cases h : lookupReg g w.registry with
  | none => simp [cleanupRun, cleanupState, h]
  | some st =>
    cases sf <;> cases df <;>
      by_cases hst : st.connection.status = VCStatus.destroyed <;>
        simp [cleanupRun, cleanupState, h, hst, stopPlayerCall, destroyConnCall,
          lookupReg_erase]

theorem ensureConnection_fresh (sf df : Bool) (readyAt : Option Nat)
    (g chanId : Nat) (w : World)
    (hlk : lookupReg g w.registry = none)
    (hready : within readyAt connectionReadyTimeoutMs = true) :
    ensureConnection sf df readyAt g chanId w =
      ({ registry :=
           insertReg g
             { connection := { connId := w.nextConnId, channelId := chanId,
                               status := VCStatus.signalling },
               chain := [] } w.registry,
         nextConnId := w.nextConnId + 1 },
       [Ev.connCreate w.nextConnId],
       Except.ok
         { connection := { connId := w.nextConnId, channelId := chanId,
                           status := VCStatus.signalling },
           chain := [] }) := by
  simp [ensureConnection, hlk, hready]

/-- C4: a speak request whose target channel differs from the
registered session's channel first tears the old session down — the
player is force-stopped and the old connection destroyed before the new
connection is created, in that trace order — and registers a fresh
session for the new channel; a request for the same channel reuses the
session as is, with no events and no new connection. -/
theorem c4_channel_switch (readyAt : Option Nat) (g chanId : Nat)
    (w : World) (st : SessionState)
    (hlk : lookupReg g w.registry = some st)
    (hnd : st.connection.status ≠ VCStatus.destroyed)
    (hready : within readyAt connectionReadyTimeoutMs = true) :
    (st.connection.channelId ≠ chanId →
      ensureConnection false false readyAt g chanId w =
        ({ registry :=
             insertReg g
               { connection := { connId := w.nextConnId, channelId := chanId,
                                 status := VCStatus.signalling },
                 chain := [] } (eraseReg g w.registry),
           nextConnId := w.nextConnId + 1 },
         [Ev.playerStop st.connection.connId,
          Ev.connDestroy st.connection.connId,
          Ev.connCreate w.nextConnId],
         Except.ok
           { connection := { connId := w.nextConnId, channelId := chanId,
                             status := VCStatus.signalling },
             chain := [] }))
    ∧ (st.connection.channelId = chanId →
      ensureConnection false false readyAt g chanId w = (w, [], Except.ok st)) := by
  constructor
  · intro hne
    have hbeq : (st.connection.channelId == chanId) = false := by
      simpa using hne
    have hclean : cleanupRun false false g w =
        ({ w with registry := eraseReg g w.registry },
         [Ev.playerStop st.connection.connId, Ev.connDestroy st.connection.connId]) := by
      simp [cleanupRun, cleanupState, hlk, hnd, stopPlayerCall, destroyConnCall]
    simp [ensureConnection, hlk, hbeq, hclean, hready]
  · intro heq
    have hbeq : (st.connection.channelId == chanId) = true := by
      simpa using heq
    simp [ensureConnection, hlk, hbeq, hready]

/-- Witness for C4: a registered session for channel 2, asked for
channel 3 (teardown then fresh create) and for channel 2 (reuse). -/
theorem c4_channel_switch_witness :
    ((({ registry :=
           [(0, { connection := { connId := 1, channelId := 2,
                                  status := VCStatus.ready },
                  chain := [] })],
         nextConnId := 5 } : World) |> fun w =>
      (ensureConnection false false (some 0) 0 3 w =
        ({ registry :=
             insertReg 0
               { connection := { connId := 5, channelId := 3,
                                 status := VCStatus.signalling },
                 chain := [] } (eraseReg 0 w.registry),
           nextConnId := 6 },
         [Ev.playerStop 1, Ev.connDestroy 1, Ev.connCreate 5],
         Except.ok
           { connection := { connId := 5, channelId := 3,
                             status := VCStatus.signalling },
             chain := [] }))
      ∧ ensureConnection false false (some 0) 0 2 w =
          (w, [],
           Except.ok { connection := { connId := 1, channelId := 2,
                                       status := VCStatus.ready },
                       chain := [] }))) := by
  have h := c4_channel_switch (some 0) 0 3
    { registry :=
        [(0, { connection := { connId := 1, channelId := 2,
                               status := VCStatus.ready },
               chain := [] })],
      nextConnId := 5 }
    { connection := { connId := 1, channelId := 2, status := VCStatus.ready },
      chain := [] } (by decide) (by decide) (by decide)
  have h' := c4_channel_switch (some 0) 0 2
    { registry :=
        [(0, { connection := { connId := 1, channelId := 2,
                               status := VCStatus.ready },
               chain := [] })],
      nextConnId := 5 }
    { connection := { connId := 1, channelId := 2, status := VCStatus.ready },
      chain := [] } (by decide) (by decide) (by decide)
  exact ⟨h.1 (by decide), h'.2 rfl⟩

/-! ## C5: the disconnect grace window -/

/-- C5: when a connection emits Disconnected, the session survives
untouched if either recovery transition (Signalling or Connecting,
whichever comes first) is observed within the 5-second grace window
(`disconnectGraceMs = 5000`); when neither arrives in the window the
session is torn down — the registry entry disappears — and a subsequent
speak request for the group creates a brand-new session with a fresh
connection. -/
theorem c5_disconnect_grace (sig con : Option Nat) (sf df : Bool) (g : Nat)
    (w : World) (st : SessionState)
    (hlk : lookupReg g w.registry = some st) :
    disconnectGraceMs = 5000
    ∧ ((within sig disconnectGraceMs || within con disconnectGraceMs) = true →
        onDisconnected sig con sf df g w = (w, [])
        ∧ lookupReg g (onDisconnected sig con sf df g w).1.registry = some st)
    ∧ ((within sig disconnectGraceMs || within con disconnectGraceMs) = false →
        lookupReg g (onDisconnected sig con sf df g w).1.registry = none
        ∧ (∀ readyAt chanId, within readyAt connectionReadyTimeoutMs = true →
            ∃ w' st',
              ensureConnection sf df readyAt g chanId
                  (onDisconnected sig con sf df g w).1
                = (w', [Ev.connCreate (onDisconnected sig con sf df g w).1.nextConnId],
                   Except.ok st')
              ∧ lookupReg g w'.registry = some st'
              ∧ st'.connection.channelId = chanId
              ∧ st'.chain = [])) := by
  refine ⟨rfl, ?_, ?_⟩
  · intro hrec
    have hsurv : onDisconnected sig con sf df g w = (w, []) := by
      simp [onDisconnected, hrec]
    exact ⟨hsurv, by rw [hsurv]; exact hlk⟩
  · intro hmiss
    have hdead : onDisconnected sig con sf df g w = cleanupRun sf df g w := by
      simp [onDisconnected, hmiss]
    have hnone : lookupReg g (onDisconnected sig con sf df g w).1.registry = none := by
      rw [hdead]; exact cleanupRun_lookup_none sf df g w
    refine ⟨hnone, ?_⟩
    intro readyAt chanId hready
    refine ⟨_, _, ensureConnection_fresh sf df readyAt g chanId _ hnone hready, ?_, rfl, rfl⟩
    exact lookupReg_insert g _ _

/-- Witness for C5: a session whose disconnect sees a Signalling
transition at 1 ms (survival), and one that sees nothing (teardown and
re-creation on the next request). -/
theorem c5_disconnect_grace_witness :
    (onDisconnected (some 1) none false false 0
        { registry :=
            [(0, { connection := { connId := 1, channelId := 2,
                                   status := VCStatus.ready },
                   chain := [] })],
          nextConnId := 5 }
      = ({ registry :=
             [(0, { connection := { connId := 1, channelId := 2,
                                    status := VCStatus.ready },
                    chain := [] })],
           nextConnId := 5 }, []))
    ∧ lookupReg 0 (onDisconnected none none false false 0
        { registry :=
            [(0, { connection := { connId := 1, channelId := 2,
                                   status := VCStatus.ready },
                   chain := [] })],
          nextConnId := 5 }).1.registry = none := by
  have h₁ := c5_disconnect_grace (some 1) none false false 0
    { registry :=
        [(0, { connection := { connId := 1, channelId := 2,
                               status := VCStatus.ready },
               chain := [] })],
      nextConnId := 5 }
    { connection := { connId := 1, channelId := 2, status := VCStatus.ready },
      chain := [] } (by decide)
  have h₂ := c5_disconnect_grace none none false false 0
    { registry :=
        [(0, { connection := { connId := 1, channelId := 2,
                               status := VCStatus.ready },
               chain := [] })],
      nextConnId := 5 }
    { connection := { connId := 1, channelId := 2, status := VCStatus.ready },
      chain := [] } (by decide)
  exact ⟨(h₁.2.1 (by decide)).1, (h₂.2.2 (by decide)).1⟩

/-! ## Trace-position toolkit -/

theorem firstPos_cons_pos {p : Ev → Bool} {e : Ev} (tr : List Ev) (h : p e = true) :
    firstPos p (e :: tr) = some 0 := by
  simp [firstPos, h]

theorem firstPos_cons_neg {p : Ev → Bool} {e : Ev} (tr : List Ev) (h : p e = false) :
    firstPos p (e :: tr) = (firstPos p tr).map (· + 1) := by
  simp [firstPos, h]

theorem firstPos_append_left {p : Ev → Bool} :
    ∀ {a : List Ev} (b : List Ev) {i : Nat},
      firstPos p a = some i → firstPos p (a ++ b) = some i := by
  intro a
  induction a with
  | nil => intro b i h; cases h
  | cons e a ih =>
    intro b i h
    cases hp : p e with
    | true =>
      rw [firstPos_cons_pos _ hp] at h
      rw [List.cons_append, firstPos_cons_pos _ hp]
      exact h
    | false =>
      rw [firstPos_cons_neg _ hp] at h
      rw [List.cons_append, firstPos_cons_neg _ hp]
      cases ha : firstPos p a with
      | none => rw [ha] at h; cases h
      | some j =>
        rw [ha] at h
        rw [ih b ha]
        exact h

theorem firstPos_append_right {p : Ev → Bool} :
    ∀ {a : List Ev} {b : List Ev} {i : Nat},
      (∀ ev ∈ a, p ev = false) → firstPos p b = some i →
      firstPos p (a ++ b) = some (a.length + i) := by
  intro a
  induction a with
  | nil => intro b i _ hb; simpa using hb
  | cons e a ih =>
    intro b i ha hb
    have hpe : p e = false := ha e (by simp)
    have ha' : ∀ ev ∈ a, p ev = false := fun ev hev => ha ev (by simp [hev])
    rw [List.cons_append, firstPos_cons_neg _ hpe, ih ha' hb]
    simp only [Option.map_some', List.length_cons]
    congr 1
    omega

theorem firstPos_none_of_all {p : Ev → Bool} :
    ∀ {a : List Ev}, (∀ ev ∈ a, p ev = false) → firstPos p a = none := by
  intro a
  induction a with
  | nil => intro _; rfl
  | cons e a ih =>
    intro h
    rw [firstPos_cons_neg _ (h e (by simp)), ih (fun ev hev => h ev (by simp [hev]))]
    rfl

theorem countP_eq_zero_of_all {P : Ev → Bool} {l : List Ev}
    (h : ∀ ev ∈ l, P ev = false) : l.countP P = 0 :=
  List.countP_eq_zero.mpr (fun a ha => by simp [h a ha])

theorem evTid_of_isStartOf {k : Nat} {ev : Ev} (h : isStartOf k ev = true) :
    evTid ev = some k := by
  cases ev <;> simp_all [isStartOf, evTid]

theorem evTid_of_isEndOf {k : Nat} {ev : Ev} (h : isEndOf k ev = true) :
    evTid ev = some k := by
  cases ev <;> simp_all [isEndOf, evTid]

theorem evTid_of_isOnErrorOf {k : Nat} {ev : Ev} (h : isOnErrorOf k ev = true) :
    evTid ev = some k := by
  cases ev <;> simp_all [isOnErrorOf, evTid]

theorem evTid_of_isSynthOf {k : Nat} {ev : Ev} (h : isSynthOf k ev = true) :
    evTid ev = some k := by
  cases ev <;> simp_all [isSynthOf, evTid]

theorem isSynthOf_of_isSynthPlayOf {k : Nat} {ev : Ev}
    (h : isSynthPlayOf k ev = true) : isSynthOf k ev = true := by
  cases ev <;> simp_all [isSynthPlayOf, isSynthOf]

/-! ## Per-entry trace facts -/

theorem playText_evs (e : ChainEntry) :
    (playText e).1 =
      (if e.prepared then [] else [Ev.synthStart e.tid SynthOrigin.atPlay]) ++
      (if e.oracle.synthOk then [Ev.playCall e.tid] else []) := by
  cases hp : e.prepared <;> cases hs : e.oracle.synthOk <;>
    cases h₁ : within e.oracle.playingAt playingStartTimeoutMs <;>
      cases h₂ : within e.oracle.idleAt (playbackTimeoutMs e.text) <;>
        simp [playText, hp, hs, h₁, h₂]

theorem playText_snd_isSome (e : ChainEntry) :
    (playText e).2.isSome = taskFails e.text e.oracle := by
  cases hp : e.prepared <;> cases hs : e.oracle.synthOk <;>
    cases h₁ : within e.oracle.playingAt playingStartTimeoutMs <;>
      cases h₂ : within e.oracle.idleAt (playbackTimeoutMs e.text) <;>
        simp [playText, taskFails, hp, hs, h₁, h₂]

theorem mem_playText_evs (e : ChainEntry) :
    ∀ ev ∈ (playText e).1,
      ev = Ev.synthStart e.tid SynthOrigin.atPlay ∨ ev = Ev.playCall e.tid := by
  intro ev hev
  rw [playText_evs] at hev
  rcases List.mem_append.mp hev with h | h
  · split at h
    · simp at h
    · simp at h; exact Or.inl h
  · split at h
    · simp at h; exact Or.inr h
    · simp at h

theorem mem_runEntry_tid (e : ChainEntry) :
    ∀ ev ∈ runEntry e, evTid ev = some e.tid := by
  intro ev hev
  unfold runEntry at hev
  rcases List.mem_cons.mp hev with rfl | hev'
  · rfl
  rcases List.mem_append.mp hev' with hmid | htail
  · rcases mem_playText_evs e ev hmid with rfl | rfl <;> rfl
  rcases List.mem_cons.mp htail with rfl | hite
  · rfl
  split at hite
  · simp at hite; subst hite; rfl
  · simp at hite

theorem runEntry_all_false_of_ne {P : Ev → Bool} {k : Nat} (e : ChainEntry)
    (hP : ∀ ev, P ev = true → evTid ev = some k) (hk : k ≠ e.tid) :
    ∀ ev ∈ runEntry e, P ev = false := by
  intro ev hev
  cases hPe : P ev with
  | false => rfl
  | true =>
    exfalso
    have h₁ := hP ev hPe
    have h₂ := mem_runEntry_tid e ev hev
    rw [h₁] at h₂
    exact hk (Option.some.inj h₂)

theorem runEntry_firstPos_start (e : ChainEntry) :
    firstPos (isStartOf e.tid) (runEntry e) = some 0 := by
  unfold runEntry
  exact firstPos_cons_pos _ (by simp [isStartOf])

theorem runEntry_firstPos_end (e : ChainEntry) :
    firstPos (isEndOf e.tid) (runEntry e) = some ((playText e).1.length + 1) := by
  unfold runEntry
  rw [firstPos_cons_neg _ (by simp [isEndOf])]
  have hmid : ∀ ev ∈ (playText e).1, isEndOf e.tid ev = false := by
    intro ev hev
    rcases mem_playText_evs e ev hev with rfl | rfl <;> simp [isEndOf]
  have hend : firstPos (isEndOf e.tid)
      (Ev.taskEnd e.tid (playText e).2 ::
        (if (playText e).2.isSome then [Ev.onError e.tid] else [])) = some 0 :=
    firstPos_cons_pos _ (by simp [isEndOf])
  rw [firstPos_append_right hmid hend]
  rfl

theorem runEntry_end_lt_length (e : ChainEntry) :
    (playText e).1.length + 1 < (runEntry e).length := by
  unfold runEntry
  simp only [List.length_cons, List.length_append]
  split <;> simp only [List.length_nil, List.length_cons] <;> omega

theorem runEntry_countP_start (e : ChainEntry) :
    (runEntry e).countP (isStartOf e.tid) = 1 := by
  unfold runEntry
  rw [List.countP_cons]
  have hrest : ((playText e).1 ++ Ev.taskEnd e.tid (playText e).2 ::
      (if (playText e).2.isSome then [Ev.onError e.tid] else [])).countP
        (isStartOf e.tid) = 0 := by
    apply countP_eq_zero_of_all
    intro ev hev
    rcases List.mem_append.mp hev with hmid | htail
    · rcases mem_playText_evs e ev hmid with rfl | rfl <;> simp [isStartOf]
    rcases List.mem_cons.mp htail with rfl | hite
    · simp [isStartOf]
    split at hite
    · simp at hite; subst hite; simp [isStartOf]
    · simp at hite
  rw [hrest]
  simp [isStartOf]

theorem runEntry_countP_end (e : ChainEntry) :
    (runEntry e).countP (isEndOf e.tid) = 1 := by
  unfold runEntry
  rw [List.countP_cons, List.countP_append, List.countP_cons]
  have hmid : ((playText e).1).countP (isEndOf e.tid) = 0 := by
    apply countP_eq_zero_of_all
    intro ev hev
    rcases mem_playText_evs e ev hev with rfl | rfl <;> simp [isEndOf]
  have hite : ((if (playText e).2.isSome then [Ev.onError e.tid] else []) :
      List Ev).countP (isEndOf e.tid) = 0 := by
    split <;> simp [isEndOf]
  rw [hmid, hite]
  simp [isEndOf]

theorem runEntry_countP_onError (e : ChainEntry) :
    (runEntry e).countP (isOnErrorOf e.tid)
      = if taskFails e.text e.oracle then 1 else 0 := by
  unfold runEntry
  rw [List.countP_cons, List.countP_append, List.countP_cons]
  have hmid : ((playText e).1).countP (isOnErrorOf e.tid) = 0 := by
    apply countP_eq_zero_of_all
    intro ev hev
    rcases mem_playText_evs e ev hev with rfl | rfl <;> simp [isOnErrorOf]
  have hite : ((if (playText e).2.isSome then [Ev.onError e.tid] else []) :
      List Ev).countP (isOnErrorOf e.tid)
      = if taskFails e.text e.oracle then 1 else 0 := by
    rw [show (if (playText e).2.isSome then ([Ev.onError e.tid] : List Ev) else [])
          = if taskFails e.text e.oracle then [Ev.onError e.tid] else []
        from by rw [← playText_snd_isSome]]
    split <;> simp [isOnErrorOf]
  rw [hmid, hite]
  simp [isOnErrorOf]

theorem mem_playText_evs_prepared (e : ChainEntry) (hp : e.prepared = true) :
    ∀ ev ∈ (playText e).1, ev = Ev.playCall e.tid := by
  intro ev hev
  rw [playText_evs, hp] at hev
  simp only [if_true, List.nil_append] at hev
  split at hev
  · simpa using hev
  · simp at hev

theorem runEntry_countP_synth (e : ChainEntry) (k : Nat) (hp : e.prepared = true) :
    (runEntry e).countP (isSynthOf k) = 0 := by
  apply countP_eq_zero_of_all
  intro ev hev
  unfold runEntry at hev
  rcases List.mem_cons.mp hev with rfl | hev'
  · simp [isSynthOf]
  rcases List.mem_append.mp hev' with hmid | htail
  · rw [mem_playText_evs_prepared e hp ev hmid]
    simp [isSynthOf]
  rcases List.mem_cons.mp htail with rfl | hite
  · simp [isSynthOf]
  split at hite
  · simp at hite; subst hite; simp [isSynthOf]
  · simp at hite

/-! ## Chain-level trace facts -/

theorem runChain_cons (c : ChainEntry) (cs : List ChainEntry) :
    runChain (c :: cs) = runEntry c ++ runChain cs := by
  simp [runChain]

theorem mkChain_cons (base : Nat) (r : List Char × TaskOracle)
    (rest : List (List Char × TaskOracle)) :
    mkChain base (r :: rest) =
      { tid := base, text := r.1, oracle := r.2, prepared := true } ::
        mkChain (base + 1) rest := rfl

theorem mem_runChain_tid :
    ∀ (cs : List ChainEntry) (ev : Ev), ev ∈ runChain cs →
      ∃ c ∈ cs, evTid ev = some c.tid := by
  intro cs
  induction cs with
  | nil => intro ev h; simp [runChain] at h
  | cons c cs ih =>
    intro ev h
    rw [runChain_cons] at h
    rcases List.mem_append.mp h with h' | h'
    · exact ⟨c, List.mem_cons_self c cs, mem_runEntry_tid c ev h'⟩
    · obtain ⟨c', hc', ht⟩ := ih ev h'
      exact ⟨c', List.mem_cons_of_mem c hc', ht⟩

theorem mem_mkChain_tid :
    ∀ (reqs : List (List Char × TaskOracle)) (base : Nat) (c : ChainEntry),
      c ∈ mkChain base reqs → base ≤ c.tid ∧ c.tid < base + reqs.length := by
  intro reqs
  induction reqs with
  | nil => intro base c h; simp [mkChain] at h
  | cons r rest ih =>
    intro base c h
    rw [mkChain_cons] at h
    rcases List.mem_cons.mp h with rfl | h'
    · simp
    · have := ih (base + 1) c h'
      constructor
      · omega
      · simp only [List.length_cons]
        omega

theorem chain_all_false_out {P : Ev → Bool} {k : Nat}
    (hP : ∀ ev, P ev = true → evTid ev = some k) :
    ∀ (reqs : List (List Char × TaskOracle)) (base : Nat),
      (k < base ∨ base + reqs.length ≤ k) →
      ∀ ev ∈ runChain (mkChain base reqs), P ev = false := by
  intro reqs base hout ev hev
  cases hPe : P ev with
  | false => rfl
  | true =>
    exfalso
    obtain ⟨c, hc, htid⟩ := mem_runChain_tid _ ev hev
    obtain ⟨h₁, h₂⟩ := mem_mkChain_tid _ _ _ hc
    have h₃ := hP ev hPe
    rw [h₃] at htid
    have := Option.some.inj htid
    omega

theorem chain_start_end_pos :
    ∀ (reqs : List (List Char × TaskOracle)) (base k : Nat),
      base ≤ k → k < base + reqs.length →
      ∃ s e, firstPos (isStartOf k) (runChain (mkChain base reqs)) = some s
        ∧ firstPos (isEndOf k) (runChain (mkChain base reqs)) = some e
        ∧ s < e := by
  intro reqs
  induction reqs with
  | nil =>
    intro base k h₁ h₂
    simp at h₂
    omega
  | cons r rest ih =>
    intro base k h₁ h₂
    rw [mkChain_cons, runChain_cons]
    set e₀ : ChainEntry :=
      { tid := base, text := r.1, oracle := r.2, prepared := true } with he₀
    by_cases hk : k = base
    · subst hk
      refine ⟨0, (playText e₀).1.length + 1, ?_, ?_, by omega⟩
      · exact firstPos_append_left _ (runEntry_firstPos_start e₀)
      · exact firstPos_append_left _ (runEntry_firstPos_end e₀)
    · have hk₁ : base + 1 ≤ k := by omega
      have h₂' : k < (base + 1) + rest.length := by
        simp only [List.length_cons] at h₂
        omega
      obtain ⟨s, e, hs, he, hse⟩ := ih (base + 1) k hk₁ h₂'
      have hks : ∀ ev ∈ runEntry e₀, isStartOf k ev = false :=
        runEntry_all_false_of_ne e₀ (fun ev h => evTid_of_isStartOf h) hk
      have hke : ∀ ev ∈ runEntry e₀, isEndOf k ev = false :=
        runEntry_all_false_of_ne e₀ (fun ev h => evTid_of_isEndOf h) hk
      exact ⟨(runEntry e₀).length + s, (runEntry e₀).length + e,
        firstPos_append_right hks hs, firstPos_append_right hke he, by omega⟩

theorem chain_order_pos :
    ∀ (reqs : List (List Char × TaskOracle)) (base i j : Nat),
      base ≤ i → i < j → j < base + reqs.length →
      ∃ ei sj, firstPos (isEndOf i) (runChain (mkChain base reqs)) = some ei
        ∧ firstPos (isStartOf j) (runChain (mkChain base reqs)) = some sj
        ∧ ei < sj := by
  intro reqs
  induction reqs with
  | nil =>
    intro base i j h₁ h₂ h₃
    simp at h₃
    omega
  | cons r rest ih =>
    intro base i j h₁ h₂ h₃
    rw [mkChain_cons, runChain_cons]
    set e₀ : ChainEntry :=
      { tid := base, text := r.1, oracle := r.2, prepared := true } with he₀
    have htid : e₀.tid = base := rfl
    by_cases hi : i = base
    · subst hi
      have hj₁ : i + 1 ≤ j := by omega
      have h₃' : j < (i + 1) + rest.length := by
        simp only [List.length_cons] at h₃
        omega
      obtain ⟨s, e, hs, _, _⟩ := chain_start_end_pos rest (i + 1) j hj₁ h₃'
      have hjs : ∀ ev ∈ runEntry e₀, isStartOf j ev = false :=
        runEntry_all_false_of_ne e₀ (fun ev h => evTid_of_isStartOf h) (by omega)
      refine ⟨(playText e₀).1.length + 1, (runEntry e₀).length + s,
        firstPos_append_left _ (runEntry_firstPos_end e₀),
        firstPos_append_right hjs hs, ?_⟩
      have := runEntry_end_lt_length e₀
      omega
    · have hi₁ : base + 1 ≤ i := by omega
      have h₃' : j < (base + 1) + rest.length := by
        simp only [List.length_cons] at h₃
        omega
      obtain ⟨ei, sj, hei, hsj, hlt⟩ := ih (base + 1) i j hi₁ h₂ h₃'
      have hie : ∀ ev ∈ runEntry e₀, isEndOf i ev = false :=
        runEntry_all_false_of_ne e₀ (fun ev h => evTid_of_isEndOf h) hi
      have hjs : ∀ ev ∈ runEntry e₀, isStartOf j ev = false :=
        runEntry_all_false_of_ne e₀ (fun ev h => evTid_of_isStartOf h) (by omega)
      exact ⟨(runEntry e₀).length + ei, (runEntry e₀).length + sj,
        firstPos_append_right hie hei, firstPos_append_right hjs hsj, by omega⟩

theorem chain_countP_start :
    ∀ (reqs : List (List Char × TaskOracle)) (base k : Nat),
      (runChain (mkChain base reqs)).countP (isStartOf k)
        = if base ≤ k ∧ k < base + reqs.length then 1 else 0 := by
  intro reqs
  induction reqs with
  | nil =>
    intro base k
    simp only [List.length_nil, Nat.add_zero]
    rw [if_neg (by omega)]
    simp [mkChain, runChain]
  | cons r rest ih =>
    intro base k
    rw [mkChain_cons, runChain_cons, List.countP_append, ih (base + 1) k]
    set e₀ : ChainEntry :=
      { tid := base, text := r.1, oracle := r.2, prepared := true } with he₀
    by_cases hk : k = base
    · subst hk
      rw [runEntry_countP_start e₀]
      simp only [List.length_cons]
      split_ifs <;> omega
    · rw [countP_eq_zero_of_all
        (runEntry_all_false_of_ne e₀ (fun ev h => evTid_of_isStartOf h) hk)]
      simp only [List.length_cons]
      split_ifs <;> omega

theorem chain_countP_end :
    ∀ (reqs : List (List Char × TaskOracle)) (base k : Nat),
      (runChain (mkChain base reqs)).countP (isEndOf k)
        = if base ≤ k ∧ k < base + reqs.length then 1 else 0 := by
  intro reqs
  induction reqs with
  | nil =>
    intro base k
    simp only [List.length_nil, Nat.add_zero]
    rw [if_neg (by omega)]
    simp [mkChain, runChain]
  | cons r rest ih =>
    intro base k
    rw [mkChain_cons, runChain_cons, List.countP_append, ih (base + 1) k]
    set e₀ : ChainEntry :=
      { tid := base, text := r.1, oracle := r.2, prepared := true } with he₀
    by_cases hk : k = base
    · subst hk
      rw [runEntry_countP_end e₀]
      simp only [List.length_cons]
      split_ifs <;> omega
    · rw [countP_eq_zero_of_all
        (runEntry_all_false_of_ne e₀ (fun ev h => evTid_of_isEndOf h) hk)]
      simp only [List.length_cons]
      split_ifs <;> omega

theorem chain_countP_onError :
    ∀ (reqs : List (List Char × TaskOracle)) (base k : Nat) (hk : k < reqs.length),
      (runChain (mkChain base reqs)).countP (isOnErrorOf (base + k))
        = if taskFails (reqs.get ⟨k, hk⟩).1 (reqs.get ⟨k, hk⟩).2 then 1 else 0 := by
  intro reqs
  induction reqs with
  | nil =>
    intro base k hk
    simp at hk
  | cons r rest ih =>
    intro base k hk
    rw [mkChain_cons, runChain_cons, List.countP_append]
    set e₀ : ChainEntry :=
      { tid := base, text := r.1, oracle := r.2, prepared := true } with he₀
    have htid : e₀.tid = base := rfl
    cases k with
    | zero =>
      rw [Nat.add_zero]
      rw [runEntry_countP_onError e₀]
      rw [countP_eq_zero_of_all
        (chain_all_false_out (fun ev h => evTid_of_isOnErrorOf h) rest (base + 1)
          (Or.inl (by omega)))]
      simp
    | succ k' =>
      have hk' : k' < rest.length := by simpa using hk
      rw [countP_eq_zero_of_all
        (runEntry_all_false_of_ne e₀ (fun ev h => evTid_of_isOnErrorOf h) (by omega))]
      have : base + (k' + 1) = (base + 1) + k' := by omega
      rw [this, ih (base + 1) k' hk']
      simp

theorem chain_countP_synth :
    ∀ (reqs : List (List Char × TaskOracle)) (base k : Nat),
      (runChain (mkChain base reqs)).countP (isSynthOf k) = 0 := by
  intro reqs
  induction reqs with
  | nil => intro base k; simp [mkChain, runChain]
  | cons r rest ih =>
    intro base k
    rw [mkChain_cons, runChain_cons, List.countP_append, ih (base + 1) k,
      runEntry_countP_synth _ k rfl]

theorem evTid_of_isConnErrorEv {ev : Ev} (h : isConnErrorEv ev = true) :
    evTid ev = none := by
  cases ev <;> simp_all [isConnErrorEv, evTid]

theorem chain_countP_connError (cs : List ChainEntry) :
    (runChain cs).countP isConnErrorEv = 0 := by
  apply countP_eq_zero_of_all
  intro ev hev
  cases hPe : isConnErrorEv ev with
  | false => rfl
  | true =>
    exfalso
    obtain ⟨c, _, htid⟩ := mem_runChain_tid cs ev hev
    rw [evTid_of_isConnErrorEv hPe] at htid
    cases htid

/-! ## Enqueue-time trace facts -/

theorem enqEvs_cons (base : Nat) (r : List Char × TaskOracle)
    (rest : List (List Char × TaskOracle)) :
    enqEvs base (r :: rest) =
      Ev.synthStart base SynthOrigin.atEnqueue :: Ev.enqueued base ::
        enqEvs (base + 1) rest := rfl

theorem mem_enqEvs :
    ∀ (reqs : List (List Char × TaskOracle)) (base : Nat) (ev : Ev),
      ev ∈ enqEvs base reqs →
      ∃ t, (ev = Ev.synthStart t SynthOrigin.atEnqueue ∨ ev = Ev.enqueued t) := by
  intro reqs
  induction reqs with
  | nil => intro base ev h; simp [enqEvs] at h
  | cons r rest ih =>
    intro base ev h
    rw [enqEvs_cons] at h
    rcases List.mem_cons.mp h with rfl | h'
    · exact ⟨base, Or.inl rfl⟩
    rcases List.mem_cons.mp h' with rfl | h''
    · exact ⟨base, Or.inr rfl⟩
    · exact ih (base + 1) ev h''

theorem enqEvs_no_task_events (reqs : List (List Char × TaskOracle))
    (base k : Nat) :
    ∀ ev ∈ enqEvs base reqs,
      isStartOf k ev = false ∧ isEndOf k ev = false ∧ isOnErrorOf k ev = false
      ∧ isConnErrorEv ev = false ∧ isSynthPlayOf k ev = false := by
  intro ev hev
  obtain ⟨t, h | h⟩ := mem_enqEvs reqs base ev hev <;> subst h <;>
    simp [isStartOf, isEndOf, isOnErrorOf, isConnErrorEv, isSynthPlayOf]

theorem enqEvs_countP_synth :
    ∀ (reqs : List (List Char × TaskOracle)) (base k : Nat),
      (enqEvs base reqs).countP (isSynthOf k)
        = if base ≤ k ∧ k < base + reqs.length then 1 else 0 := by
  intro reqs
  induction reqs with
  | nil =>
    intro base k
    simp only [List.length_nil, Nat.add_zero]
    rw [if_neg (by omega)]
    simp [enqEvs]
  | cons r rest ih =>
    intro base k
    rw [enqEvs_cons, List.countP_cons, List.countP_cons, ih (base + 1) k]
    have h₂ : isSynthOf k (Ev.enqueued base) = false := by simp [isSynthOf]
    by_cases hk : k = base
    · subst hk
      have h₁ : isSynthOf k (Ev.synthStart k SynthOrigin.atEnqueue) = true := by
        simp [isSynthOf]
      rw [h₁, h₂]
      simp only [List.length_cons]
      rw [if_neg (show ¬(k + 1 ≤ k ∧ k < k + 1 + rest.length) by omega),
        if_pos (show k ≤ k ∧ k < k + (rest.length + 1) by omega)]
      simp
    · have h₁ : isSynthOf k (Ev.synthStart base SynthOrigin.atEnqueue) = false := by
        simp [isSynthOf]
        omega
      rw [h₁, h₂]
      simp only [List.length_cons]
      by_cases h₃ : base + 1 ≤ k
      · by_cases h₄ : k < base + 1 + rest.length
        · rw [if_pos ⟨h₃, h₄⟩, if_pos (show base ≤ k ∧ k < base + (rest.length + 1)
            by omega)]
          simp
        · rw [if_neg (show ¬(base + 1 ≤ k ∧ k < base + 1 + rest.length) by omega),
            if_neg (show ¬(base ≤ k ∧ k < base + (rest.length + 1)) by omega)]
          simp
      · rw [if_neg (show ¬(base + 1 ≤ k ∧ k < base + 1 + rest.length) by omega),
          if_neg (show ¬(base ≤ k ∧ k < base + (rest.length + 1)) by omega)]
        simp

theorem enqEvs_synth_pos :
    ∀ (reqs : List (List Char × TaskOracle)) (base k : Nat),
      base ≤ k → k < base + reqs.length →
      ∃ p, firstPos (isSynthOf k) (enqEvs base reqs) = some p
        ∧ p < (enqEvs base reqs).length := by
  intro reqs
  induction reqs with
  | nil =>
    intro base k h₁ h₂
    simp at h₂
    omega
  | cons r rest ih =>
    intro base k h₁ h₂
    rw [enqEvs_cons]
    by_cases hk : k = base
    · subst hk
      refine ⟨0, firstPos_cons_pos _ (by simp [isSynthOf]), by simp⟩
    · have h₂' : k < (base + 1) + rest.length := by
        simp only [List.length_cons] at h₂
        omega
      obtain ⟨p, hp, hlen⟩ := ih (base + 1) k (by omega) h₂'
      have hs : isSynthOf k (Ev.synthStart base SynthOrigin.atEnqueue) = false := by
        simp [isSynthOf]
        omega
      have he : isSynthOf k (Ev.enqueued base) = false := by simp [isSynthOf]
      refine ⟨p + 1 + 1, ?_, ?_⟩
      · rw [firstPos_cons_neg _ hs, firstPos_cons_neg _ he, hp]
        rfl
      · simp only [List.length_cons]
        omega

/-! ## Scenario closed form -/

theorem enqueueSpeech_existing (sf df : Bool) (readyAt : Option Nat)
    (g chanId : Nat) (text : List Char) (orc : TaskOracle) (w : World)
    (st : SessionState)
    (hlk : lookupReg g w.registry = some st)
    (hch : (st.connection.channelId == chanId) = true)
    (hready : within readyAt connectionReadyTimeoutMs = true) :
    enqueueSpeech sf df readyAt g chanId text orc w =
      ({ w with
          registry :=
            insertReg g
              ({ st with
                  chain := st.chain ++
                    [{ tid := st.chain.length, text := text, oracle := orc,
                       prepared := true }] })
              w.registry },
       [Ev.synthStart st.chain.length SynthOrigin.atEnqueue,
        Ev.enqueued st.chain.length]) := by
  have hens : ensureConnection sf df readyAt g chanId w = (w, [], Except.ok st) := by
    simp [ensureConnection, hlk, hch, hready]
  simp [enqueueSpeech, hens]

theorem enqueueAll_existing :
    ∀ (reqs : List (List Char × TaskOracle)) (sf df : Bool) (readyAt : Option Nat)
      (g chanId : Nat) (w : World) (st : SessionState),
      lookupReg g w.registry = some st →
      (st.connection.channelId == chanId) = true →
      within readyAt connectionReadyTimeoutMs = true →
      (enqueueAll sf df readyAt g chanId reqs w).2 = enqEvs st.chain.length reqs
      ∧ lookupReg g (enqueueAll sf df readyAt g chanId reqs w).1.registry
          = some { st with chain := st.chain ++ mkChain st.chain.length reqs } := by
  intro reqs
  induction reqs with
  | nil =>
    intro sf df readyAt g chanId w st hlk hch hready
    refine ⟨rfl, ?_⟩
    simpa [enqueueAll, mkChain] using hlk
  | cons r rest ih =>
    intro sf df readyAt g chanId w st hlk hch hready
    have hstep := enqueueSpeech_existing sf df readyAt g chanId r.1 r.2 w st
      hlk hch hready
    have hlk' : lookupReg g
        (enqueueSpeech sf df readyAt g chanId r.1 r.2 w).1.registry
        = some { st with chain := st.chain ++
            [{ tid := st.chain.length, text := r.1, oracle := r.2,
               prepared := true }] } := by
      rw [hstep]
      exact lookupReg_insert g _ _
    obtain ⟨htr, hfin⟩ := ih sf df readyAt g chanId
      (enqueueSpeech sf df readyAt g chanId r.1 r.2 w).1
      { st with chain := st.chain ++
          [{ tid := st.chain.length, text := r.1, oracle := r.2,
             prepared := true }] }
      hlk' hch hready
    constructor
    · show (enqueueAll sf df readyAt g chanId (r :: rest) w).2
        = enqEvs st.chain.length (r :: rest)
      rw [show enqueueAll sf df readyAt g chanId (r :: rest) w
            = ((enqueueAll sf df readyAt g chanId rest
                  (enqueueSpeech sf df readyAt g chanId r.1 r.2 w).1).1,
               (enqueueSpeech sf df readyAt g chanId r.1 r.2 w).2 ++
                 (enqueueAll sf df readyAt g chanId rest
                   (enqueueSpeech sf df readyAt g chanId r.1 r.2 w).1).2)
          from rfl]
      rw [htr, hstep]
      simp [enqEvs_cons, List.length_append]
    · show lookupReg g
          (enqueueAll sf df readyAt g chanId (r :: rest) w).1.registry = _
      rw [show (enqueueAll sf df readyAt g chanId (r :: rest) w).1
            = (enqueueAll sf df readyAt g chanId rest
                (enqueueSpeech sf df readyAt g chanId r.1 r.2 w).1).1
          from rfl]
      rw [hfin]
      congr 1
      simp [mkChain_cons, List.length_append, List.append_assoc]

theorem runScenario_closed (sf df : Bool) (readyAt : Option Nat)
    (g chanId : Nat) (r : List Char × TaskOracle)
    (rest : List (List Char × TaskOracle)) (w : World)
    (hlk : lookupReg g w.registry = none)
    (hready : within readyAt connectionReadyTimeoutMs = true) :
    runScenario sf df readyAt g chanId (r :: rest) w
      = Ev.connCreate w.nextConnId ::
          (enqEvs 0 (r :: rest) ++ runChain (mkChain 0 (r :: rest))) := by
  have hfresh := ensureConnection_fresh sf df readyAt g chanId w hlk hready
  have hstep1 : enqueueSpeech sf df readyAt g chanId r.1 r.2 w =
      ({ registry := insertReg g
           { connection := { connId := w.nextConnId, channelId := chanId,
                             status := VCStatus.signalling },
             chain := [{ tid := 0, text := r.1, oracle := r.2, prepared := true }] }
           (insertReg g
             { connection := { connId := w.nextConnId, channelId := chanId,
                               status := VCStatus.signalling },
               chain := [] } w.registry),
         nextConnId := w.nextConnId + 1 },
       [Ev.connCreate w.nextConnId,
        Ev.synthStart 0 SynthOrigin.atEnqueue, Ev.enqueued 0]) := by
    simp [enqueueSpeech, hfresh]
  have hlk1 : lookupReg g
      (enqueueSpeech sf df readyAt g chanId r.1 r.2 w).1.registry
      = some { connection := { connId := w.nextConnId, channelId := chanId,
                               status := VCStatus.signalling },
               chain := [{ tid := 0, text := r.1, oracle := r.2,
                           prepared := true }] } := by
    rw [hstep1]
    exact lookupReg_insert g _ _
  obtain ⟨htr, hfin⟩ := enqueueAll_existing rest sf df readyAt g chanId
    (enqueueSpeech sf df readyAt g chanId r.1 r.2 w).1
    { connection := { connId := w.nextConnId, channelId := chanId,
                      status := VCStatus.signalling },
      chain := [{ tid := 0, text := r.1, oracle := r.2, prepared := true }] }
    hlk1 (by simp) hready
  unfold runScenario
  rw [show enqueueAll sf df readyAt g chanId (r :: rest) w
        = ((enqueueAll sf df readyAt g chanId rest
              (enqueueSpeech sf df readyAt g chanId r.1 r.2 w).1).1,
           (enqueueSpeech sf df readyAt g chanId r.1 r.2 w).2 ++
             (enqueueAll sf df readyAt g chanId rest
               (enqueueSpeech sf df readyAt g chanId r.1 r.2 w).1).2)
      from rfl]
  simp only [hfin]
  rw [htr, hstep1]
  simp only [enqEvs_cons, mkChain_cons]
  simp [runChain_cons, List.append_assoc]

theorem scenario_firstPos (sf df : Bool) (readyAt : Option Nat)
    (g chanId : Nat) (r : List Char × TaskOracle)
    (rest : List (List Char × TaskOracle)) (w : World)
    (hlk : lookupReg g w.registry = none)
    (hready : within readyAt connectionReadyTimeoutMs = true)
    (P : Ev → Bool) (x : Nat)
    (hcc : P (Ev.connCreate w.nextConnId) = false)
    (henq : ∀ ev ∈ enqEvs 0 (r :: rest), P ev = false)
    (hchain : firstPos P (runChain (mkChain 0 (r :: rest))) = some x) :
    firstPos P (runScenario sf df readyAt g chanId (r :: rest) w)
      = some ((enqEvs 0 (r :: rest)).length + x + 1) := by
  rw [runScenario_closed sf df readyAt g chanId r rest w hlk hready]
  rw [firstPos_cons_neg _ hcc, firstPos_append_right henq hchain]
  rfl

theorem scenario_countP (sf df : Bool) (readyAt : Option Nat)
    (g chanId : Nat) (r : List Char × TaskOracle)
    (rest : List (List Char × TaskOracle)) (w : World)
    (hlk : lookupReg g w.registry = none)
    (hready : within readyAt connectionReadyTimeoutMs = true)
    (P : Ev → Bool)
    (hcc : P (Ev.connCreate w.nextConnId) = false)
    (henq : ∀ ev ∈ enqEvs 0 (r :: rest), P ev = false) :
    (runScenario sf df readyAt g chanId (r :: rest) w).countP P
      = (runChain (mkChain 0 (r :: rest))).countP P := by
  rw [runScenario_closed sf df readyAt g chanId r rest w hlk hready]
  rw [List.countP_cons, List.countP_append, countP_eq_zero_of_all henq, hcc]
  simp

/-! ## C1: total order and mutual exclusion of the playback queue -/

/-- C1: for every burst of speak requests enqueued for the same group
(submitted to a group with no prior session, with the connection
becoming ready in time), the playback tasks run in exactly the order
they were enqueued: each task has exactly one start and one terminal
event in the trace, and for every pair i < j the trace positions
satisfy start(i) < end(i) < start(j) < end(j) — task j never starts
before task i has reached a terminal state (completed, failed or timed
out), so no two playback windows of the same group overlap. -/
theorem c1_queue_total_order (sf df : Bool) (readyAt : Option Nat)
    (g chanId : Nat) (reqs : List (List Char × TaskOracle)) (w : World)
    (hlk : lookupReg g w.registry = none)
    (hready : within readyAt connectionReadyTimeoutMs = true)
    (i j : Nat) (hij : i < j) (hj : j < reqs.length) :
    ∃ si ei sj ej,
      firstPos (isStartOf i) (runScenario sf df readyAt g chanId reqs w) = some si
      ∧ firstPos (isEndOf i) (runScenario sf df readyAt g chanId reqs w) = some ei
      ∧ firstPos (isStartOf j) (runScenario sf df readyAt g chanId reqs w) = some sj
      ∧ firstPos (isEndOf j) (runScenario sf df readyAt g chanId reqs w) = some ej
      ∧ si < ei ∧ ei < sj ∧ sj < ej
      ∧ (runScenario sf df readyAt g chanId reqs w).countP (isStartOf i) = 1
      ∧ (runScenario sf df readyAt g chanId reqs w).countP (isEndOf i) = 1
      ∧ (runScenario sf df readyAt g chanId reqs w).countP (isStartOf j) = 1
      ∧ (runScenario sf df readyAt g chanId reqs w).countP (isEndOf j) = 1 := by
  cases reqs with
  | nil => simp at hj
  | cons r rest =>
    have hjlen : j < (r :: rest).length := hj
    obtain ⟨s_i, e_i, hsi, hei, hsei⟩ :=
      chain_start_end_pos (r :: rest) 0 i (Nat.zero_le _) (by omega)
    obtain ⟨s_j, e_j, hsj, hej, hsej⟩ :=
      chain_start_end_pos (r :: rest) 0 j (Nat.zero_le _) (by omega)
    obtain ⟨ei', sj', hei', hsj', hlt⟩ :=
      chain_order_pos (r :: rest) 0 i j (Nat.zero_le _) hij (by omega)
    have heq₁ : e_i = ei' := by
      rw [hei] at hei'
      exact Option.some.inj hei'
    have heq₂ : s_j = sj' := by
      rw [hsj] at hsj'
      exact Option.some.inj hsj'
    have henqS : ∀ k : Nat, ∀ ev ∈ enqEvs 0 (r :: rest), isStartOf k ev = false :=
      fun k ev hev => (enqEvs_no_task_events (r :: rest) 0 k ev hev).1
    have henqE : ∀ k : Nat, ∀ ev ∈ enqEvs 0 (r :: rest), isEndOf k ev = false :=
      fun k ev hev => (enqEvs_no_task_events (r :: rest) 0 k ev hev).2.1
    refine ⟨(enqEvs 0 (r :: rest)).length + s_i + 1,
      (enqEvs 0 (r :: rest)).length + e_i + 1,
      (enqEvs 0 (r :: rest)).length + s_j + 1,
      (enqEvs 0 (r :: rest)).length + e_j + 1,
      scenario_firstPos sf df readyAt g chanId r rest w hlk hready _ _ rfl
        (henqS i) hsi,
      scenario_firstPos sf df readyAt g chanId r rest w hlk hready _ _ rfl
        (henqE i) hei,
      scenario_firstPos sf df readyAt g chanId r rest w hlk hready _ _ rfl
        (henqS j) hsj,
      scenario_firstPos sf df readyAt g chanId r rest w hlk hready _ _ rfl
        (henqE j) hej,
      by omega, by omega, by omega, ?_, ?_, ?_, ?_⟩
    · rw [scenario_countP sf df readyAt g chanId r rest w hlk hready _ rfl (henqS i),
        chain_countP_start, if_pos ⟨Nat.zero_le _, by omega⟩]
    · rw [scenario_countP sf df readyAt g chanId r rest w hlk hready _ rfl (henqE i),
        chain_countP_end, if_pos ⟨Nat.zero_le _, by omega⟩]
    · rw [scenario_countP sf df readyAt g chanId r rest w hlk hready _ rfl (henqS j),
        chain_countP_start, if_pos ⟨Nat.zero_le _, by omega⟩]
    · rw [scenario_countP sf df readyAt g chanId r rest w hlk hready _ rfl (henqE j),
        chain_countP_end, if_pos ⟨Nat.zero_le _, by omega⟩]

/-- Witness for C1: two rapid requests (spec §8's "hello" then "world")
against a fresh world. -/
theorem c1_queue_total_order_witness :
    ∃ si ei sj ej,
      firstPos (isStartOf 0) (runScenario false false (some 0) 0 1
        [("hello".data, { synthOk := true, playingAt := some 0, idleAt := some 0 }),
         ("world".data, { synthOk := true, playingAt := some 0, idleAt := some 0 })]
        { registry := [], nextConnId := 0 }) = some si
      ∧ firstPos (isEndOf 0) (runScenario false false (some 0) 0 1
        [("hello".data, { synthOk := true, playingAt := some 0, idleAt := some 0 }),
         ("world".data, { synthOk := true, playingAt := some 0, idleAt := some 0 })]
        { registry := [], nextConnId := 0 }) = some ei
      ∧ firstPos (isStartOf 1) (runScenario false false (some 0) 0 1
        [("hello".data, { synthOk := true, playingAt := some 0, idleAt := some 0 }),
         ("world".data, { synthOk := true, playingAt := some 0, idleAt := some 0 })]
        { registry := [], nextConnId := 0 }) = some sj
      ∧ firstPos (isEndOf 1) (runScenario false false (some 0) 0 1
        [("hello".data, { synthOk := true, playingAt := some 0, idleAt := some 0 }),
         ("world".data, { synthOk := true, playingAt := some 0, idleAt := some 0 })]
        { registry := [], nextConnId := 0 }) = some ej
      ∧ si < ei ∧ ei < sj ∧ sj < ej
      ∧ (runScenario false false (some 0) 0 1
        [("hello".data, { synthOk := true, playingAt := some 0, idleAt := some 0 }),
         ("world".data, { synthOk := true, playingAt := some 0, idleAt := some 0 })]
        { registry := [], nextConnId := 0 }).countP (isStartOf 0) = 1
      ∧ (runScenario false false (some 0) 0 1
        [("hello".data, { synthOk := true, playingAt := some 0, idleAt := some 0 }),
         ("world".data, { synthOk := true, playingAt := some 0, idleAt := some 0 })]
        { registry := [], nextConnId := 0 }).countP (isEndOf 0) = 1
      ∧ (runScenario false false (some 0) 0 1
        [("hello".data, { synthOk := true, playingAt := some 0, idleAt := some 0 }),
         ("world".data, { synthOk := true, playingAt := some 0, idleAt := some 0 })]
        { registry := [], nextConnId := 0 }).countP (isStartOf 1) = 1
      ∧ (runScenario false false (some 0) 0 1
        [("hello".data, { synthOk := true, playingAt := some 0, idleAt := some 0 }),
         ("world".data, { synthOk := true, playingAt := some 0, idleAt := some 0 })]
        { registry := [], nextConnId := 0 }).countP (isEndOf 1) = 1 :=
  c1_queue_total_order false false (some 0) 0 1
    [("hello".data, { synthOk := true, playingAt := some 0, idleAt := some 0 }),
     ("world".data, { synthOk := true, playingAt := some 0, idleAt := some 0 })]
    { registry := [], nextConnId := 0 } rfl rfl 0 1 (by decide) (by decide)

/-! ## C3: task failures are contained at the queue boundary -/

/-- C3: in a burst of requests for one group, a failing task (synthesis
failure, playback-start timeout, or playback timeout) is reported via
its caller-supplied failure callback exactly once and a succeeding task
not at all; every task — including every task enqueued after a failing
one — still starts and reaches a terminal state exactly once, and no
enqueue-time connection-failure callback fires, so the failure never
escapes the queue. -/
theorem c3_failures_contained (sf df : Bool) (readyAt : Option Nat)
    (g chanId : Nat) (reqs : List (List Char × TaskOracle)) (w : World)
    (hlk : lookupReg g w.registry = none)
    (hready : within readyAt connectionReadyTimeoutMs = true)
    (k : Nat) (hk : k < reqs.length) :
    (runScenario sf df readyAt g chanId reqs w).countP (isOnErrorOf k)
        = (if taskFails (reqs.get ⟨k, hk⟩).1 (reqs.get ⟨k, hk⟩).2 then 1 else 0)
    ∧ (runScenario sf df readyAt g chanId reqs w).countP (isStartOf k) = 1
    ∧ (runScenario sf df readyAt g chanId reqs w).countP (isEndOf k) = 1
    ∧ (runScenario sf df readyAt g chanId reqs w).countP isConnErrorEv = 0 := by
  cases reqs with
  | nil => simp at hk
  | cons r rest =>
    have henqO : ∀ ev ∈ enqEvs 0 (r :: rest), isOnErrorOf k ev = false :=
      fun ev hev => (enqEvs_no_task_events (r :: rest) 0 k ev hev).2.2.1
    have henqS : ∀ ev ∈ enqEvs 0 (r :: rest), isStartOf k ev = false :=
      fun ev hev => (enqEvs_no_task_events (r :: rest) 0 k ev hev).1
    have henqE : ∀ ev ∈ enqEvs 0 (r :: rest), isEndOf k ev = false :=
      fun ev hev => (enqEvs_no_task_events (r :: rest) 0 k ev hev).2.1
    have henqC : ∀ ev ∈ enqEvs 0 (r :: rest), isConnErrorEv ev = false :=
      fun ev hev => (enqEvs_no_task_events (r :: rest) 0 k ev hev).2.2.2.1
    refine ⟨?_, ?_, ?_, ?_⟩
    · rw [scenario_countP sf df readyAt g chanId r rest w hlk hready _ rfl henqO]
      have h := chain_countP_onError (r :: rest) 0 k hk
      rw [Nat.zero_add] at h
      exact h
    · rw [scenario_countP sf df readyAt g chanId r rest w hlk hready _ rfl henqS,
        chain_countP_start, if_pos ⟨Nat.zero_le _, by omega⟩]
    · rw [scenario_countP sf df readyAt g chanId r rest w hlk hready _ rfl henqE,
        chain_countP_end, if_pos ⟨Nat.zero_le _, by omega⟩]
    · rw [scenario_countP sf df readyAt g chanId r rest w hlk hready _ rfl henqC]
      exact chain_countP_connError _

/-- Witness for C3: task 0 fails synthesis, task 1 — already enqueued —
still plays; the failure callback fires exactly once for task 0 and
never for task 1. -/
theorem c3_failures_contained_witness :
    ((runScenario false false (some 0) 0 1
        [("a".data, { synthOk := false, playingAt := some 0, idleAt := some 0 }),
         ("b".data, { synthOk := true, playingAt := some 0, idleAt := some 0 })]
        { registry := [], nextConnId := 0 }).countP (isOnErrorOf 0) = 1
      ∧ (runScenario false false (some 0) 0 1
        [("a".data, { synthOk := false, playingAt := some 0, idleAt := some 0 }),
         ("b".data, { synthOk := true, playingAt := some 0, idleAt := some 0 })]
        { registry := [], nextConnId := 0 }).countP (isStartOf 1) = 1)
    ∧ (runScenario false false (some 0) 0 1
        [("a".data, { synthOk := false, playingAt := some 0, idleAt := some 0 }),
         ("b".data, { synthOk := true, playingAt := some 0, idleAt := some 0 })]
        { registry := [], nextConnId := 0 }).countP (isOnErrorOf 1) = 0 := by
  have h0 := c3_failures_contained false false (some 0) 0 1
    [("a".data, { synthOk := false, playingAt := some 0, idleAt := some 0 }),
     ("b".data, { synthOk := true, playingAt := some 0, idleAt := some 0 })]
    { registry := [], nextConnId := 0 } rfl rfl 0 (by decide)
  have h1 := c3_failures_contained false false (some 0) 0 1
    [("a".data, { synthOk := false, playingAt := some 0, idleAt := some 0 }),
     ("b".data, { synthOk := true, playingAt := some 0, idleAt := some 0 })]
    { registry := [], nextConnId := 0 } rfl rfl 1 (by decide)
  refine ⟨⟨?_, h1.2.1⟩, ?_⟩
  · rw [h0.1]
    decide
  · rw [h1.1]
    decide

/-! ## C8: synthesis is pipelined ahead of playback -/

/-- C8: for every accepted request in a burst, exactly one synthesis
call is made for its task, issued at enqueue time (origin `atEnqueue`);
`playText` never issues a second call (no `atPlay` synthesis start in
the trace); the synthesis start precedes the task's own playback start,
and for a task after the first it even precedes the previous task's
playback end — so synthesis of item N+1 may overlap playback of item N
while the queue still waits on the already-started future at its turn. -/
theorem c8_synthesis_pipelined (sf df : Bool) (readyAt : Option Nat)
    (g chanId : Nat) (reqs : List (List Char × TaskOracle)) (w : World)
    (hlk : lookupReg g w.registry = none)
    (hready : within readyAt connectionReadyTimeoutMs = true)
    (k : Nat) (hk : k < reqs.length) :
    ∃ p q,
      firstPos (isSynthOf k) (runScenario sf df readyAt g chanId reqs w) = some p
      ∧ firstPos (isStartOf k) (runScenario sf df readyAt g chanId reqs w) = some q
      ∧ p < q
      ∧ (runScenario sf df readyAt g chanId reqs w).countP (isSynthOf k) = 1
      ∧ (runScenario sf df readyAt g chanId reqs w).countP (isSynthPlayOf k) = 0
      ∧ (0 < k → ∃ pe,
          firstPos (isEndOf (k - 1)) (runScenario sf df readyAt g chanId reqs w)
            = some pe ∧ p < pe) := by
  cases reqs with
  | nil => simp at hk
  | cons r rest =>
    obtain ⟨p₀, hp₀, hp₀len⟩ :=
      enqEvs_synth_pos (r :: rest) 0 k (Nat.zero_le _) (by omega)
    obtain ⟨s_k, e_k, hsk, _, _⟩ :=
      chain_start_end_pos (r :: rest) 0 k (Nat.zero_le _) (by omega)
    have hsynth_pos : firstPos (isSynthOf k)
        (runScenario sf df readyAt g chanId (r :: rest) w) = some (p₀ + 1) := by
      rw [runScenario_closed sf df readyAt g chanId r rest w hlk hready]
      rw [firstPos_cons_neg _ rfl,
        firstPos_append_left _ hp₀]
      rfl
    have henqS : ∀ ev ∈ enqEvs 0 (r :: rest), isStartOf k ev = false :=
      fun ev hev => (enqEvs_no_task_events (r :: rest) 0 k ev hev).1
    have hstart_pos := scenario_firstPos sf df readyAt g chanId r rest w hlk
      hready _ _ rfl henqS hsk
    refine ⟨p₀ + 1, (enqEvs 0 (r :: rest)).length + s_k + 1, hsynth_pos,
      hstart_pos, by omega, ?_, ?_, ?_⟩
    · rw [runScenario_closed sf df readyAt g chanId r rest w hlk hready,
        List.countP_cons, List.countP_append, enqEvs_countP_synth,
        if_pos ⟨Nat.zero_le _, by omega⟩, chain_countP_synth]
      rfl
    · apply countP_eq_zero_of_all
      intro ev hev
      rw [runScenario_closed sf df readyAt g chanId r rest w hlk hready] at hev
      rcases List.mem_cons.mp hev with rfl | hev'
      · rfl
      rcases List.mem_append.mp hev' with henq | hchain
      · exact (enqEvs_no_task_events (r :: rest) 0 k ev henq).2.2.2.2
      · cases hval : isSynthPlayOf k ev with
        | false => rfl
        | true =>
          exfalso
          have hsyn := isSynthOf_of_isSynthPlayOf hval
          have hzero := List.countP_eq_zero.mp (chain_countP_synth (r :: rest) 0 k)
          exact (hzero ev hchain) hsyn
    · intro hkpos
      obtain ⟨s', e', _, hek, _⟩ :=
        chain_start_end_pos (r :: rest) 0 (k - 1) (Nat.zero_le _) (by omega)
      have henqE : ∀ ev ∈ enqEvs 0 (r :: rest), isEndOf (k - 1) ev = false :=
        fun ev hev => (enqEvs_no_task_events (r :: rest) 0 (k - 1) ev hev).2.1
      refine ⟨(enqEvs 0 (r :: rest)).length + e' + 1,
        scenario_firstPos sf df readyAt g chanId r rest w hlk hready _ _ rfl
          henqE hek, by omega⟩

/-- Witness for C8: two requests; synthesis for task 1 starts before
task 0's playback ends. -/
theorem c8_synthesis_pipelined_witness :
    ∃ p q,
      firstPos (isSynthOf 1) (runScenario false false (some 0) 0 1
        [("a".data, { synthOk := true, playingAt := some 0, idleAt := some 0 }),
         ("b".data, { synthOk := true, playingAt := some 0, idleAt := some 0 })]
        { registry := [], nextConnId := 0 }) = some p
      ∧ firstPos (isStartOf 1) (runScenario false false (some 0) 0 1
        [("a".data, { synthOk := true, playingAt := some 0, idleAt := some 0 }),
         ("b".data, { synthOk := true, playingAt := some 0, idleAt := some 0 })]
        { registry := [], nextConnId := 0 }) = some q
      ∧ p < q
      ∧ (runScenario false false (some 0) 0 1
        [("a".data, { synthOk := true, playingAt := some 0, idleAt := some 0 }),
         ("b".data, { synthOk := true, playingAt := some 0, idleAt := some 0 })]
        { registry := [], nextConnId := 0 }).countP (isSynthOf 1) = 1
      ∧ (runScenario false false (some 0) 0 1
        [("a".data, { synthOk := true, playingAt := some 0, idleAt := some 0 }),
         ("b".data, { synthOk := true, playingAt := some 0, idleAt := some 0 })]
        { registry := [], nextConnId := 0 }).countP (isSynthPlayOf 1) = 0
      ∧ (0 < 1 → ∃ pe,
          firstPos (isEndOf 0) (runScenario false false (some 0) 0 1
            [("a".data, { synthOk := true, playingAt := some 0, idleAt := some 0 }),
             ("b".data, { synthOk := true, playingAt := some 0, idleAt := some 0 })]
            { registry := [], nextConnId := 0 }) = some pe ∧ p < pe) :=
  c8_synthesis_pipelined false false (some 0) 0 1
    [("a".data, { synthOk := true, playingAt := some 0, idleAt := some 0 }),
     ("b".data, { synthOk := true, playingAt := some 0, idleAt := some 0 })]
    { registry := [], nextConnId := 0 } rfl rfl 1 (by decide)

end TtsBot
